import Mathlib

/-!
JobConnect: the address suggestion widget and the page functions around it.

A shallow embedding of the address-autocomplete widget of the JobConnect page
scripts, and of `generateStarRating`, `renderStars`, `loadBookings`,
`sortFavorites` and the submit handler of the booking form. Two copies of the
widget are modelled:

* `JobConnect.Widget`: the booking-modal widget of `bookTechnician`
  (`src/client/js/dashboard.js`, repeated verbatim in `favorite.js` and, as
  `bookTechnicianFromSearch`, in `search.js`);
* `JobConnect.Signup`: the location widget of `src/styling/signup-client.js`.

Event handlers become functions on an explicit state record. The browser is the
environment: it delivers input, timer, response, key and mouse events in any
order, which is modelled by running a handler per event over an arbitrary list
of events.

Behaviour of the platform that the model relies on:

* a `fetch` whose signal is aborted rejects with an `AbortError`, also while the
  body is still being read, and promise handlers run before the next event is
  delivered; so the handlers of an aborted request never receive data;
* the geocoding service answers with well-formed candidates: `display_name`,
  `lat` and `lon` are strings and `address` is an object whose parts are
  strings or absent;
* form fields, `dataset` entries and `style.display` are plain accessors;
* the page scripts are classic scripts, not in strict mode;
* numbers are doubles, kept by their exact value as a fraction: `Math.floor`,
  `% 1`, comparisons and the sign of a difference are exact on them;
* `Array.prototype.sort` is stable.
-/

namespace JobConnect

/-! ## JavaScript strings -/

/-- A JavaScript string, as its sequence of UTF-16 code units, so that the
`length` property is `List.length`. -/
abbrev JsString := List Nat

/-- The code units that `String.prototype.trim` strips: ECMAScript WhiteSpace
and LineTerminator. -/
def isWhiteSpace (c : Nat) : Bool :=
  c = 0x09 || c = 0x0A || c = 0x0B || c = 0x0C || c = 0x0D || c = 0x20 ||
  c = 0xA0 || c = 0x1680 || (0x2000 ≤ c && c ≤ 0x200A) || c = 0x2028 ||
  c = 0x2029 || c = 0x202F || c = 0x205F || c = 0x3000 || c = 0xFEFF

/-- The method `String.prototype.trim`. -/
def trim (s : JsString) : JsString :=
  ((s.dropWhile isWhiteSpace).reverse.dropWhile isWhiteSpace).reverse

/-- The call `s.split(',')`: the pieces between commas (code unit 44); the
empty string splits into one empty piece. -/
def splitComma : JsString → List JsString
  | [] => [[]]
  | c :: cs =>
    if c = 44 then [] :: splitComma cs
    else
      match splitComma cs with
      | [] => [[c]]
      | p :: ps => (c :: p) :: ps

/-- The call `parts.join(', ')`. -/
def joinCommaSpace : List JsString → JsString
  | [] => []
  | [p] => p
  | p :: q :: ps => p ++ [44, 32] ++ joinCommaSpace (q :: ps)

/-- The expression `display_name.split(',').slice(0, 3).join(', ')`. -/
def displayTextOf (display_name : JsString) : JsString :=
  joinCommaSpace ((splitComma display_name).take 3)

/-- Truthiness of an optional string property: absent (`undefined`) and the
empty string are falsy. -/
def truthy : Option JsString → Bool
  | none => false
  | some v => !v.isEmpty

/-- The expression `a || b` on optional string properties. -/
def jsOr (a b : Option JsString) : Option JsString :=
  if truthy a then a else b

/-- The expression `a || ''`. -/
def orEmpty (a : Option JsString) : JsString :=
  match a with
  | some v => if truthy a then v else []
  | none => []

/-! ## Data model -/

/-- The structured address of a geocoding candidate; every part may be absent. -/
structure Address where
  road : Option JsString
  neighbourhood : Option JsString
  city : Option JsString
  town : Option JsString
  village : Option JsString
  postcode : Option JsString
  state : Option JsString
  country : Option JsString
deriving DecidableEq, Repr

/-- One candidate returned by the geocoding service. -/
structure Result where
  display_name : JsString
  lat : JsString
  lon : JsString
  address : Address
deriving DecidableEq, Repr

/-- A rendered `.location-suggestion-item` of the booking modal: its text, its
`dataset` and whether it carries the class `active`. The dataset entry
`address` holds `JSON.stringify(address)`, which the click listener parses
back; the record is kept as it is. -/
structure Item where
  textContent : JsString
  lat : JsString
  lon : JsString
  displayName : JsString
  address : Address
  active : Bool
deriving DecidableEq, Repr

/-- The three `location-loading` rows. -/
inductive Placeholder
  | loading
  | noResults
  | error
deriving DecidableEq, Repr

/-- The content of the suggestion panel: one placeholder row, or the rendered
items (`items []` is the empty `innerHTML`). -/
inductive Panel (ι : Type)
  | placeholder (p : Placeholder)
  | items (l : List ι)
deriving DecidableEq, Repr

/-- The result of `querySelectorAll('.location-suggestion-item')`. -/
def Panel.suggestionItems {ι : Type} : Panel ι → List ι
  | .placeholder _ => []
  | .items l => l

/-- Truthiness of `innerHTML`. -/
def Panel.hasContent {ι : Type} : Panel ι → Bool
  | .placeholder _ => true
  | .items l => !l.isEmpty

/-- A geocoding request that has been issued: its query, whether `abort()` was
called on its controller, and whether its promise chain has run its handlers. -/
structure Request where
  query : JsString
  aborted : Bool
  settled : Bool
deriving DecidableEq, Repr

/-- A request is pending while its promise chain has not settled and its
controller has not been aborted. -/
def Request.pending (r : Request) : Bool := !r.settled && !r.aborted

/-- How the service answers a request: a 2xx response with a JSON array, or a
network error, a non-2xx response or an unreadable body. -/
inductive Outcome
  | ok (data : List Result)
  | failed
deriving DecidableEq, Repr

/-- A coordinate pair `[parseFloat(lat), parseFloat(lon)]`, kept by the two
strings it is parsed from. -/
structure LatLng where
  lat : JsString
  lon : JsString
deriving DecidableEq, Repr

/-- The Leaflet map view: centre and zoom. -/
structure MapView where
  center : LatLng
  zoom : Nat
deriving DecidableEq, Repr

/-- The keys the keydown listener distinguishes. -/
inductive Key
  | arrowDown
  | arrowUp
  | enter
  | other
deriving DecidableEq, Repr

/-- Where a click lands: on the text input, on the `k`-th suggestion item, or
anywhere else. -/
inductive ClickTarget
  | input
  | item (k : Nat)
  | elsewhere
deriving DecidableEq, Repr

/-- The events the browser delivers to the widget. -/
inductive Event
  | input (value : JsString)
  | timerFire
  | response (id : Nat) (o : Outcome)
  | keydown (k : Key)
  | mouseover (k : Nat)
  | click (t : ClickTarget)
  | focus
deriving DecidableEq, Repr

/-- Whether an event is an input event or the timer firing. -/
def Event.isInputOrTimer : Event → Bool
  | .input _ => true
  | .timerFire => true
  | _ => false

/-- Whether an event is an input event. -/
def Event.isInput : Event → Bool
  | .input _ => true
  | _ => false

/-- Whether an event can commit a suggestion: a click on an item, or Enter. -/
def Event.mayCommit : Event → Bool
  | .click (.item _) => true
  | .keydown .enter => true
  | _ => false

/-- The cap on results that every request asks the service for, the parameter
`limit=5` of the request URL. -/
def resultLimit : Nat := 5

/-- Calling `abort()` on the controller of request `id`. -/
def abortRequest (requests : List Request) (id : Nat) : List Request :=
  match requests[id]? with
  | some r => requests.set id { r with aborted := true }
  | none => requests

/-- Marking request `id` as settled, once its handlers have run. -/
def settleRequest (requests : List Request) (id : Nat) : List Request :=
  match requests[id]? with
  | some r => requests.set id { r with settled := true }
  | none => requests

/-- The loop of `updateActiveSuggestion`: item `index` carries the class
`active` exactly when `index === activeSuggestionIndex`. -/
def toggleActive (activeSuggestionIndex : Int) : Nat → List Item → List Item
  | _, [] => []
  | index, item :: rest =>
    { item with active := decide ((index : Int) = activeSuggestionIndex) } ::
      toggleActive activeSuggestionIndex (index + 1) rest

/-- The element `items[i]` of a node list, `none` for `undefined`. -/
def nodeAt {ι : Type} (items : List ι) (i : Int) : Option ι :=
  if 0 ≤ i then items[i.toNat]? else none

/-! ## The booking-modal widget (`bookTechnician`, `dashboard.js`) -/

/-- The state of one booking modal: the form fields, the closure variables of
`bookTechnician`, the suggestion panel and map preview, and the requests issued
so far (request `id` is the `id`-th one issued). -/
structure Widget where
  addressValue : JsString
  cityValue : JsString
  postalCodeValue : JsString
  provinceValue : JsString
  countryValue : JsString
  latitudeValue : JsString
  longitudeValue : JsString
  /-- The armed debounce timer with the query its callback captured. -/
  debounceTimer : Option JsString
  activeSuggestionIndex : Int
  /-- The controller in `currentRequest`, by the id of its request. -/
  currentRequest : Option Nat
  map : Option MapView
  marker : Option LatLng
  panel : Panel Item
  /-- Whether `addressSuggestions.style.display` is `block`. -/
  panelVisible : Bool
  mapPreviewVisible : Bool
  requests : List Request
  /-- How many times `L.map` has been called. -/
  mapsCreated : Nat
  /-- How many times `L.marker` has been called. -/
  markersCreated : Nat
  /-- How many listener runs ended in an uncaught `TypeError`. -/
  uncaught : Nat
deriving DecidableEq, Repr

namespace Widget

/-- The modal as `bookTechnician` builds it. -/
def init : Widget where
  addressValue := []
  cityValue := []
  postalCodeValue := []
  provinceValue := []
  countryValue := []
  latitudeValue := []
  longitudeValue := []
  debounceTimer := none
  activeSuggestionIndex := -1
  currentRequest := none
  map := none
  marker := none
  panel := .items []
  panelVisible := false
  mapPreviewVisible := false
  requests := []
  mapsCreated := 0
  markersCreated := 0
  uncaught := 0

/-- The rendered suggestion items. -/
def items (s : Widget) : List Item := s.panel.suggestionItems

/-- The function `updateActiveSuggestion(items)`, called on the rendered items. -/
def updateActiveSuggestion (s : Widget) : Widget :=
  match s.panel with
  | .placeholder _ => s
  | .items l => { s with panel := .items (toggleActive s.activeSuggestionIndex 0 l) }

/-- The function `updateMapPreview(lat, lon)`: create the map and its marker
on the first call, move both afterwards. -/
def updateMapPreview (s : Widget) (lat lon : JsString) : Widget :=
  let s := { s with mapPreviewVisible := true }
  match s.map with
  | none =>
    { s with
      map := some { center := ⟨lat, lon⟩, zoom := 15 }
      mapsCreated := s.mapsCreated + 1
      marker := some ⟨lat, lon⟩
      markersCreated := s.markersCreated + 1 }
  | some _ =>
    { s with
      map := some { center := ⟨lat, lon⟩, zoom := 15 }
      marker := s.marker.map (fun _ => ⟨lat, lon⟩) }

/-- The click listener of a suggestion item. -/
def itemClick (s : Widget) (item : Item) : Widget :=
  let addressData := item.address
  let s := { s with
    addressValue := item.displayName
    cityValue := orEmpty (jsOr (jsOr addressData.city addressData.town) addressData.village)
    postalCodeValue := orEmpty addressData.postcode
    provinceValue := orEmpty addressData.state
    countryValue := orEmpty addressData.country
    latitudeValue := item.lat
    longitudeValue := item.lon }
  let s := updateMapPreview s item.lat item.lon
  { s with panelVisible := false }

/-- The item that `renderAddressSuggestions` builds for one result. -/
def renderItem (result : Result) : Item where
  textContent := displayTextOf result.display_name
  lat := result.lat
  lon := result.lon
  displayName := displayTextOf result.display_name
  address := result.address
  active := false

/-- The function `renderAddressSuggestions(results)`. -/
def renderAddressSuggestions (s : Widget) (results : List Result) : Widget :=
  { s with panel := .items (results.map renderItem) }

/-- The synchronous part of `fetchAddressSuggestions(query)`: show the loading
row, reset the active index and issue the request under a new controller. -/
def fetchAddressSuggestions (s : Widget) (query : JsString) : Widget :=
  { s with
    panel := .placeholder .loading
    panelVisible := true
    activeSuggestionIndex := -1
    currentRequest := some s.requests.length
    requests := s.requests ++ [{ query := query, aborted := false, settled := false }] }

/-- The promise chain of `fetchAddressSuggestions` for request `id`. A request
that settled before, or was never issued, delivers nothing. An aborted request
rejects with an `AbortError`, which the `catch` handler ignores. -/
def onResponse (s : Widget) (id : Nat) (o : Outcome) : Widget :=
  match s.requests[id]? with
  | none => s
  | some r =>
    if r.settled then s
    else
      let s := { s with requests := settleRequest s.requests id }
      if r.aborted then s
      else
        match o with
        | .ok data =>
          let s := { s with currentRequest := none }
          if data.length > 0 then renderAddressSuggestions s data
          else { s with panel := .placeholder .noResults }
        | .failed => { s with panel := .placeholder .error }

/-- The `input` listener of the address field. -/
def onInput (s : Widget) (value : JsString) : Widget :=
  let s := { s with addressValue := value, debounceTimer := none }
  let s :=
    match s.currentRequest with
    | some c => { s with requests := abortRequest s.requests c }
    | none => s
  let query := trim value
  if query.length < 3 then { s with panelVisible := false }
  else { s with debounceTimer := some query }

/-- The debounce timer firing: its callback calls `fetchAddressSuggestions`
with the captured query. Without an armed timer nothing fires. -/
def onTimer (s : Widget) : Widget :=
  match s.debounceTimer with
  | some query => fetchAddressSuggestions { s with debounceTimer := none } query
  | none => s

/-- The click listener of the modal, which every click bubbles up to. -/
def onModalClick (s : Widget) (t : ClickTarget) : Widget :=
  match t with
  | .input => s
  | _ => { s with panelVisible := false }

/-- The `keydown` listener of the address field. -/
def onKeydown (s : Widget) (key : Key) : Widget :=
  match key with
  | .arrowDown =>
    let next := min (s.activeSuggestionIndex + 1) ((s.items.length : Int) - 1)
    updateActiveSuggestion { s with activeSuggestionIndex := next }
  | .arrowUp =>
    let next := max (s.activeSuggestionIndex - 1) (-1)
    updateActiveSuggestion { s with activeSuggestionIndex := next }
  | .enter =>
    if s.activeSuggestionIndex ≥ 0 then
      match nodeAt s.items s.activeSuggestionIndex with
      | some item => onModalClick (itemClick s item) (.item s.activeSuggestionIndex.toNat)
      | none => { s with uncaught := s.uncaught + 1 }
    else s
  | .other => s

/-- The `mouseover` listener of item `index`; there is no such event when the
item is not rendered. -/
def onMouseover (s : Widget) (index : Nat) : Widget :=
  if index < s.items.length then
    updateActiveSuggestion { s with activeSuggestionIndex := index }
  else s

/-- A click: on a rendered item it runs the item listener first, then the
modal listener. -/
def onClick (s : Widget) (t : ClickTarget) : Widget :=
  match t with
  | .item k =>
    match s.items[k]? with
    | some item => onModalClick (itemClick s item) t
    | none => s
  | _ => onModalClick s t

/-- The `focus` listener of the address field. -/
def onFocus (s : Widget) : Widget :=
  if (trim s.addressValue).length ≥ 3 && s.panel.hasContent then
    { s with panelVisible := true }
  else s

/-- One event, handled by its listener. -/
def step (s : Widget) : Event → Widget
  | .input value => onInput s value
  | .timerFire => onTimer s
  | .response id o => onResponse s id o
  | .keydown k => onKeydown s k
  | .mouseover k => onMouseover s k
  | .click t => onClick s t
  | .focus => onFocus s

/-- A sequence of events, handled in order. -/
def run (s : Widget) (events : List Event) : Widget :=
  events.foldl step s

/-- The queries of the requests issued so far, in order of issue. -/
def queries (s : Widget) : List JsString := s.requests.map Request.query

/-- The widget state without the bookkeeping of issued requests: the form, the
closure variables, the panel and the map. -/
def visible (s : Widget) : Widget := { s with requests := [] }

/-- The item that an event commits in state `s`, if any: a click on a rendered
item, or Enter while the active index is not negative and names an item. -/
def commitOf (s : Widget) : Event → Option Item
  | .click (.item k) => s.items[k]?
  | .keydown .enter =>
    if s.activeSuggestionIndex ≥ 0 then nodeAt s.items s.activeSuggestionIndex else none
  | _ => none

/-- The items committed along a run of events, in order. -/
def commitsOf (s : Widget) : List Event → List Item
  | [] => []
  | e :: es => (commitOf s e).toList ++ commitsOf (step s e) es

/-- The map preview after the given commits: untouched when there are none,
otherwise one map and one marker created, both at the coordinates of the last
commit, with zoom 15. -/
def MapAfter (s : Widget) (commits : List Item) : Prop :=
  match commits.getLast? with
  | none => s.map = none ∧ s.marker = none ∧ s.mapsCreated = 0 ∧ s.markersCreated = 0
  | some item =>
    s.map = some ⟨⟨item.lat, item.lon⟩, 15⟩ ∧ s.marker = some ⟨item.lat, item.lon⟩ ∧
    s.mapsCreated = 1 ∧ s.markersCreated = 1

/-- The highlight follows the active index: a rendered item carries the class
`active` exactly when its position is the active index. -/
def Highlighted (s : Widget) : Prop :=
  ∀ (k : Nat) (item : Item), s.items[k]? = some item →
    (item.active = true ↔ (k : Int) = s.activeSuggestionIndex)

/-- The invariant of the reachable states: a pending request is the one in
`currentRequest` and the last one issued, no timer is armed while it is pending
and the panel shows the loading row; the active index is `-1` or the position
of a rendered item. -/
structure Inv (s : Widget) : Prop where
  pending : ∀ id r, s.requests[id]? = some r → r.pending = true →
    s.currentRequest = some id ∧ s.debounceTimer = none ∧
    s.panel = .placeholder .loading ∧ id + 1 = s.requests.length
  active : s.activeSuggestionIndex = -1 ∨
    (0 ≤ s.activeSuggestionIndex ∧ s.activeSuggestionIndex < (s.items.length : Int))

/-- A query that comes from an input event of `events` and has at least three
code units after trimming. -/
def Typed (events : List Event) (q : JsString) : Prop :=
  ∃ v, Event.input v ∈ events ∧ q = trim v ∧ 3 ≤ q.length

end Widget

/-! ## The signup location widget (`signup-client.js`)

The listeners are registered inside the block `if (locationInput) { ... }`,
which declares `debounceTimer`, `activeSuggestionIndex` and `currentRequest`
with `let`. The functions `fetchLocationSuggestions`,
`renderLocationSuggestions` and `updateActiveSuggestion` are declared after
that block, outside the scope of these three variables: the script is not in
strict mode, so their assignments to `activeSuggestionIndex` and
`currentRequest` create and use properties of the global object. -/

/-- A rendered `.location-suggestion-item` of the signup page. -/
structure SignupItem where
  textContent : JsString
  lat : JsString
  lon : JsString
  address : JsString
  active : Bool
deriving DecidableEq, Repr

/-- The state of the signup location widget. -/
structure Signup where
  locationValue : JsString
  latitudeValue : JsString
  longitudeValue : JsString
  /-- The armed debounce timer with the query its callback captured. -/
  debounceTimer : Option JsString
  /-- The block variable `activeSuggestionIndex` of the listeners. -/
  activeSuggestionIndex : Int
  /-- The block variable `currentRequest` of the listeners. -/
  currentRequest : Option Nat
  /-- The global `activeSuggestionIndex`, `none` until it is first assigned. -/
  globalActiveSuggestionIndex : Option Int
  /-- The global `currentRequest`: `none` until first assigned, then `null`
  or a controller. -/
  globalCurrentRequest : Option (Option Nat)
  panel : Panel SignupItem
  panelVisible : Bool
  requests : List Request
  /-- How many listener runs ended in an uncaught error. -/
  uncaught : Nat
deriving DecidableEq, Repr

namespace Signup

/-- The page after `DOMContentLoaded`. -/
def init : Signup where
  locationValue := []
  latitudeValue := []
  longitudeValue := []
  debounceTimer := none
  activeSuggestionIndex := -1
  currentRequest := none
  globalActiveSuggestionIndex := none
  globalCurrentRequest := none
  panel := .items []
  panelVisible := false
  requests := []
  uncaught := 0

/-- The rendered suggestion items. -/
def items (s : Signup) : List SignupItem := s.panel.suggestionItems

/-- The loop of `updateActiveSuggestion` over the signup items. -/
def toggleActive (activeSuggestionIndex : Int) : Nat → List SignupItem → List SignupItem
  | _, [] => []
  | index, item :: rest =>
    { item with active := decide ((index : Int) = activeSuggestionIndex) } ::
      toggleActive activeSuggestionIndex (index + 1) rest

/-- The function `updateActiveSuggestion(items)`: it reads the global
`activeSuggestionIndex`; reading it before it exists is a `ReferenceError`,
which needs an item for the loop body to run. -/
def updateActiveSuggestion (s : Signup) : Signup :=
  match s.panel with
  | .placeholder _ => s
  | .items [] => s
  | .items (item :: rest) =>
    match s.globalActiveSuggestionIndex with
    | some g => { s with panel := .items (toggleActive g 0 (item :: rest)) }
    | none => { s with uncaught := s.uncaught + 1 }

/-- The statement `if (part) displayText += part + sep`. -/
def appendPart (displayText : JsString) (part : Option JsString) (sep : JsString) : JsString :=
  match part with
  | some v => if truthy part then displayText ++ v ++ sep else displayText
  | none => displayText

/-- The display text that `renderLocationSuggestions` formats for one result. -/
def displayText (result : Result) : JsString :=
  let address := result.address
  let t := appendPart [] address.road [44, 32]
  let t := appendPart t address.neighbourhood [44, 32]
  let t := appendPart t address.city [44, 32]
  let t := appendPart t address.state [44, 32]
  let t := appendPart t address.country []
  if (trim t).isEmpty then displayTextOf result.display_name else t

/-- The item that `renderLocationSuggestions` builds for one result. -/
def renderItem (result : Result) : SignupItem where
  textContent := displayText result
  lat := result.lat
  lon := result.lon
  address := displayText result
  active := false

/-- The function `renderLocationSuggestions(results)`. -/
def renderLocationSuggestions (s : Signup) (results : List Result) : Signup :=
  { s with panel := .items (results.map renderItem) }

/-- The synchronous part of `fetchLocationSuggestions(query)`; the index and
the controller go to the global variables. -/
def fetchLocationSuggestions (s : Signup) (query : JsString) : Signup :=
  { s with
    panel := .placeholder .loading
    panelVisible := true
    globalActiveSuggestionIndex := some (-1)
    globalCurrentRequest := some (some s.requests.length)
    requests := s.requests ++ [{ query := query, aborted := false, settled := false }] }

/-- The promise chain of `fetchLocationSuggestions` for request `id`. -/
def onResponse (s : Signup) (id : Nat) (o : Outcome) : Signup :=
  match s.requests[id]? with
  | none => s
  | some r =>
    if r.settled then s
    else
      let s := { s with requests := settleRequest s.requests id }
      if r.aborted then s
      else
        match o with
        | .ok data =>
          let s := { s with globalCurrentRequest := some none }
          if data.length > 0 then renderLocationSuggestions s data
          else { s with panel := .placeholder .noResults }
        | .failed => { s with panel := .placeholder .error }

/-- The `input` listener of the location field; `currentRequest` is the block
variable. -/
def onInput (s : Signup) (value : JsString) : Signup :=
  let s := { s with locationValue := value, debounceTimer := none }
  let s :=
    match s.currentRequest with
    | some c => { s with requests := abortRequest s.requests c }
    | none => s
  let query := trim value
  if query.length < 3 then { s with panelVisible := false }
  else { s with debounceTimer := some query }

/-- The debounce timer firing. -/
def onTimer (s : Signup) : Signup :=
  match s.debounceTimer with
  | some query => fetchLocationSuggestions { s with debounceTimer := none } query
  | none => s

/-- The click listener of a suggestion item. -/
def itemClick (s : Signup) (item : SignupItem) : Signup :=
  { s with
    locationValue := item.address
    latitudeValue := item.lat
    longitudeValue := item.lon
    panelVisible := false }

/-- The click listener of the document. -/
def onDocumentClick (s : Signup) (t : ClickTarget) : Signup :=
  match t with
  | .elsewhere => { s with panelVisible := false }
  | _ => s

/-- The `keydown` listener of the location field; `activeSuggestionIndex` is
the block variable. -/
def onKeydown (s : Signup) (key : Key) : Signup :=
  match key with
  | .arrowDown =>
    let next := min (s.activeSuggestionIndex + 1) ((s.items.length : Int) - 1)
    updateActiveSuggestion { s with activeSuggestionIndex := next }
  | .arrowUp =>
    let next := max (s.activeSuggestionIndex - 1) (-1)
    updateActiveSuggestion { s with activeSuggestionIndex := next }
  | .enter =>
    if s.activeSuggestionIndex ≥ 0 then
      match nodeAt s.items s.activeSuggestionIndex with
      | some item => onDocumentClick (itemClick s item) (.item s.activeSuggestionIndex.toNat)
      | none => { s with uncaught := s.uncaught + 1 }
    else s
  | .other => s

/-- The `mouseover` listener of item `index`, which assigns the global index. -/
def onMouseover (s : Signup) (index : Nat) : Signup :=
  if index < s.items.length then
    updateActiveSuggestion { s with globalActiveSuggestionIndex := some index }
  else s

/-- A click: on a rendered item it runs the item listener first, then the
document listener. -/
def onClick (s : Signup) (t : ClickTarget) : Signup :=
  match t with
  | .item k =>
    match s.items[k]? with
    | some item => onDocumentClick (itemClick s item) t
    | none => s
  | _ => onDocumentClick s t

/-- The `focus` listener of the location field. -/
def onFocus (s : Signup) : Signup :=
  if (trim s.locationValue).length ≥ 3 && s.panel.hasContent then
    { s with panelVisible := true }
  else s

/-- One event, handled by its listener. -/
def step (s : Signup) : Event → Signup
  | .input value => onInput s value
  | .timerFire => onTimer s
  | .response id o => onResponse s id o
  | .keydown k => onKeydown s k
  | .mouseover k => onMouseover s k
  | .click t => onClick s t
  | .focus => onFocus s

/-- A sequence of events, handled in order. -/
def run (s : Signup) (events : List Event) : Signup :=
  events.foldl step s

end Signup

/-! ## JavaScript numbers and values -/

/-- A finite JavaScript number, kept as a fraction `num / den` that has its
exact value. -/
structure Num where
  num : Int
  den : ℕ+
deriving DecidableEq

namespace Num

/-- The number with the integer value `n`. -/
def ofInt (n : Int) : Num := ⟨n, 1⟩

/-- The rational value of the number. -/
def value (q : Num) : ℚ := (q.num : ℚ) / ((q.den : ℕ) : ℚ)

/-- The comparison `a <= b`. -/
def le (a b : Num) : Bool := decide (a.num * ((b.den : ℕ) : Int) ≤ b.num * ((a.den : ℕ) : Int))

/-- The comparison `a < b`. -/
def lt (a b : Num) : Bool := decide (a.num * ((b.den : ℕ) : Int) < b.num * ((a.den : ℕ) : Int))

/-- The comparison `a === b`. -/
def eq (a b : Num) : Bool := decide (a.num * ((b.den : ℕ) : Int) = b.num * ((a.den : ℕ) : Int))

/-- The difference `a - b`; its sign is the sign of the rounded difference. -/
def sub (a b : Num) : Num :=
  ⟨a.num * ((b.den : ℕ) : Int) - b.num * ((a.den : ℕ) : Int), a.den * b.den⟩

/-- The integer `Math.floor(q)`. -/
def floor (q : Num) : Int := q.num / ((q.den : ℕ) : Int)

/-- The remainder `q % 1`, which has the sign of `q`. -/
def mod1 (q : Num) : Num := ⟨Int.tmod q.num ((q.den : ℕ) : Int), q.den⟩

/-- The number `0.5`. -/
def half : Num := ⟨1, 2⟩

end Num

/-- A JavaScript number: `NaN`, an infinity or a finite number. -/
inductive JsNum
  | nan
  | posInf
  | negInf
  | fin (q : Num)
deriving DecidableEq

namespace JsNum

/-- The number with the integer value `n`. -/
def ofInt (n : Int) : JsNum := .fin (Num.ofInt n)

/-- Truthiness of a number: `NaN` and zero are falsy. -/
def truthy : JsNum → Bool
  | .nan => false
  | .fin q => decide (q.num ≠ 0)
  | _ => true

/-- The comparison `a === b`; `NaN` equals nothing. -/
def strictEq : JsNum → JsNum → Bool
  | .posInf, .posInf => true
  | .negInf, .negInf => true
  | .fin a, .fin b => a.eq b
  | _, _ => false

/-- The comparison `a < b`; false when either side is `NaN`. -/
def lt : JsNum → JsNum → Bool
  | .nan, _ => false
  | _, .nan => false
  | .negInf, .negInf => false
  | .negInf, _ => true
  | _, .negInf => false
  | .posInf, _ => false
  | _, .posInf => true
  | .fin a, .fin b => a.lt b

/-- The comparison `a <= b`; false when either side is `NaN`. -/
def le : JsNum → JsNum → Bool
  | .nan, _ => false
  | _, .nan => false
  | .negInf, _ => true
  | _, .posInf => true
  | .posInf, _ => false
  | _, .negInf => false
  | .fin a, .fin b => a.le b

/-- The function `Math.floor`. -/
def floor : JsNum → JsNum
  | .fin q => ofInt q.floor
  | n => n

/-- The expression `n % 1`. -/
def mod1 : JsNum → JsNum
  | .fin q => .fin q.mod1
  | _ => .nan

/-- The expression `n + 1`. -/
def succ : JsNum → JsNum
  | .fin q => .fin ⟨q.num + ((q.den : ℕ) : Int), q.den⟩
  | n => n

end JsNum

/-- A JavaScript value as it comes out of a JSON document, or `undefined` for
an absent property. -/
inductive JsValue
  | undefined
  | null
  | bool (b : Bool)
  | num (n : JsNum)
  | str (s : JsString)
deriving DecidableEq

namespace JsValue

/-- Truthiness of a value. -/
def truthy : JsValue → Bool
  | .undefined => false
  | .null => false
  | .bool b => b
  | .num n => n.truthy
  | .str s => !s.isEmpty

/-- The comparison `a === b`. -/
def strictEq : JsValue → JsValue → Bool
  | .undefined, .undefined => true
  | .null, .null => true
  | .bool a, .bool b => a == b
  | .num a, .num b => a.strictEq b
  | .str a, .str b => a == b
  | _, _ => false

/-- The conversion `Number(v)`; the conversion of strings is a parameter. -/
def toNumber (stringToNumber : JsString → JsNum) : JsValue → JsNum
  | .undefined => .nan
  | .null => JsNum.ofInt 0
  | .bool b => if b then JsNum.ofInt 1 else JsNum.ofInt 0
  | .num n => n
  | .str s => stringToNumber s

/-- The expression `v || null`. -/
def orNull (v : JsValue) : JsValue := if v.truthy then v else .null

end JsValue

/-! ## Star ratings (`generateStarRating` of `dashboard.js`, `renderStars` of
`booking.js`) -/

/-- The three icons a rating is drawn with. -/
inductive Star
  | full
  | half
  | empty
deriving DecidableEq, Repr

/-- The markup of an icon. -/
def Star.html : Star → JsString
  | .full =>
    [60, 105, 32, 99, 108, 97, 115, 115, 61, 34, 102, 97, 115, 32, 102, 97, 45, 115, 116, 97,
      114, 34, 62, 60, 47, 105, 62]
  | .half =>
    [60, 105, 32, 99, 108, 97, 115, 115, 61, 34, 102, 97, 115, 32, 102, 97, 45, 115, 116, 97,
      114, 45, 104, 97, 108, 102, 45, 97, 108, 116, 34, 62, 60, 47, 105, 62]
  | .empty =>
    [60, 105, 32, 99, 108, 97, 115, 115, 61, 34, 102, 97, 114, 32, 102, 97, 45, 115, 116, 97,
      114, 34, 62, 60, 47, 105, 62]

/-- The string built by appending the markup of the icons in order. -/
def starsHtml (stars : List Star) : JsString := (stars.map Star.html).flatten

/-- The function `generateStarRating(rating)` of `dashboard.js`, by the icons
it appends for `i = 0, ..., 4`; the string it returns is `starsHtml` of them. -/
def generateStarRating (stringToNumber : JsString → JsNum) (rating : JsValue) : List Star :=
  let n := rating.toNumber stringToNumber
  let numericRating := if n.truthy then n else JsNum.ofInt 0
  let fullStars := numericRating.floor
  let hasHalfStar := (JsNum.fin Num.half).le numericRating.mod1
  (List.range 5).map fun (i : Nat) =>
    if (JsNum.ofInt (i : Int)).lt fullStars then Star.full
    else if (JsNum.ofInt (i : Int)).strictEq fullStars && hasHalfStar then Star.half
    else Star.empty

/-- The function `renderStars(rating)` of `booking.js`, by the icons it appends
for `i = 1, ..., 5`; a falsy rating gives the empty string. -/
def renderStars (stringToNumber : JsString → JsNum) (rating : JsValue) : List Star :=
  if !rating.truthy then []
  else
    let n := rating.toNumber stringToNumber
    let fullStars := n.floor
    let hasHalfStar := (JsNum.fin Num.half).le n.mod1
    (List.range 5).map fun (k : Nat) =>
      if (JsNum.ofInt ((k : Int) + 1)).le fullStars then Star.full
      else if (JsNum.ofInt ((k : Int) + 1)).strictEq fullStars.succ && hasHalfStar then Star.half
      else Star.empty

/-! ## Bookings and their reviews (`loadBookings` of `booking.js`) -/

/-- A booking of the bookings response: the two properties `loadBookings`
reads, and all its other properties. The other properties are taken not to
include the four that `loadBookings` adds. -/
structure Booking where
  booking_id : JsValue
  status : JsValue
  rest : List (JsString × JsValue)
deriving DecidableEq

/-- A review of the reviews response. -/
structure Review where
  booking_id : JsValue
  review_id : JsValue
  rating : JsValue
  comment : JsValue
deriving DecidableEq

/-- A booking after `loadBookings` mapped it: the spread of the original
booking and the four review properties. -/
structure MappedBooking where
  booking : Booking
  has_review : Bool
  review_id : JsValue
  review_rating : JsValue
  review_comment : JsValue
deriving DecidableEq

/-- The string `completed`. -/
def completedStatus : JsValue := .str [99, 111, 109, 112, 108, 101, 116, 101, 100]

/-- The ids of the completed bookings. -/
def completedBookingIds (bookings : List Booking) : List JsValue :=
  (bookings.filter fun b => b.status.strictEq completedStatus).map Booking.booking_id

/-- The callback of `bookings.map` in `loadBookings`. -/
def mapBooking (reviews : List Review) (booking : Booking) : MappedBooking :=
  if booking.status.strictEq completedStatus then
    match reviews.find? fun r => r.booking_id.strictEq booking.booking_id with
    | some bookingReview =>
      { booking := booking
        has_review := true
        review_id := bookingReview.review_id.orNull
        review_rating := bookingReview.rating.orNull
        review_comment := bookingReview.comment.orNull }
    | none =>
      { booking := booking
        has_review := false
        review_id := .null
        review_rating := .null
        review_comment := .null }
  else
    { booking := booking
      has_review := false
      review_id := .null
      review_rating := .null
      review_comment := .null }

/-- The list that `loadBookings` hands to `displayBookings`, from the bookings
response and the reviews response (`none` when that response is not ok). The
reviews are requested only when some booking is completed. -/
def loadBookings (bookings : List Booking) (reviewsResponse : Option (List Review)) :
    List MappedBooking :=
  let reviews :=
    if (completedBookingIds bookings).length > 0 then reviewsResponse.getD [] else []
  bookings.map (mapBooking reviews)

/-! ## Sorting the favourites (`sortFavorites` of `favorite.js`) -/

/-- A favourite technician: the rating (a number, or absent) and all other
properties. -/
structure Favorite where
  rating : Option Num
  rest : List (JsString × JsValue)
deriving DecidableEq

/-- The expression `tech.rating || 0`. -/
def Favorite.ratingOrZero (tech : Favorite) : Num :=
  match tech.rating with
  | some q => if q.num ≠ 0 then q else Num.ofInt 0
  | none => Num.ofInt 0

/-- The comparator `(a, b) => (b.rating || 0) - (a.rating || 0)`. -/
def compareRating (a b : Favorite) : Num := b.ratingOrZero.sub a.ratingOrZero

/-- The argument of `sortFavorites`. -/
inductive SortBy
  | rating
  | name
  | recent
  | other
deriving DecidableEq, Repr

/-- The favourites page: the list `favoritesData` and the list last handed to
`displayFavorites`. -/
structure FavoritesPage where
  favoritesData : List Favorite
  displayed : List Favorite
deriving DecidableEq

/-- The method `Array.prototype.sort(compare)`, a stable sort: `a` stays before
`b` when `compare(a, b) <= 0`. -/
def sortWith {α : Type} (nonPositive : α → α → Bool) (l : List α) : List α :=
  l.insertionSort fun a b => nonPositive a b = true

/-- The function `sortFavorites(sortBy)`; the order by name (`localeCompare` of
the lower-cased names) is a parameter. -/
def sortFavorites (nameOrder : Favorite → Favorite → Bool) (page : FavoritesPage)
    (sortBy : SortBy) : FavoritesPage :=
  if page.favoritesData.length = 0 then page
  else
    let sorted := page.favoritesData
    let sorted :=
      match sortBy with
      | .rating => sortWith (fun a b => decide ((compareRating a b).num ≤ 0)) sorted
      | .name => sortWith nameOrder sorted
      | .recent => sorted
      | .other => sorted
    { page with displayed := sorted }

/-! ## Submitting the booking form (`bookingForm.onsubmit` of `dashboard.js`) -/

/-- A time slot of the technician's schedule. -/
structure Schedule where
  schedule_id : JsValue
  start_time : JsValue
  end_time : JsValue
deriving DecidableEq

/-- The values of the booking form when it is submitted. -/
structure BookingForm where
  serviceType : JsString
  description : JsString
  address : JsString
  city : JsString
  postalCode : JsString
  province : JsString
  country : JsString
  latitude : JsString
  longitude : JsString
  /-- The value of `scheduleSelect`, read when the technician has a schedule. -/
  scheduleSelect : JsString
  customStartDate : JsString
  customEndDate : JsString
  /-- The value of `startDate`, read when the technician has no schedule. -/
  startDate : JsString
  endDate : JsString
deriving DecidableEq

/-- The body of the booking request, by the form values it is built from; the
dates are kept by the argument of `new Date`, the coordinates by the strings
`parseFloat` is applied to. -/
structure BookingPost where
  service_type : JsString
  description : JsString
  start_date : JsValue
  end_date : JsValue
  client_address : JsString
  client_city : JsString
  client_postal_code : JsString
  client_province : JsString
  client_country : JsString
  client_latitude : JsString
  client_longitude : JsString
deriving DecidableEq

/-- The error toasts of the submit handler before a request is sent. -/
inductive SubmitToast
  | requiredFields
  | validAddress
  | selectTimeSlot
  | customTimes
  | startEndTimes
deriving DecidableEq, Repr

/-- What a submit does: it shows a toast and returns, it ends in an uncaught
`TypeError` (the selected slot is not found), it fails while the body is built
(`toISOString` of an invalid date), or it sends the request. -/
inductive SubmitResult
  | toast (t : SubmitToast)
  | threw
  | bodyFailed
  | sent (body : BookingPost)
deriving DecidableEq

/-- The start and end time the submit handler determines: the arguments of
`new Date` for `startDate` and `endDate`. -/
def determineTimes (hasSchedule : Bool) (schedules : List Schedule) (form : BookingForm) :
    Except SubmitResult (JsValue × JsValue) :=
  if hasSchedule then
    let selectedScheduleId := form.scheduleSelect
    if selectedScheduleId.isEmpty then .error (.toast .selectTimeSlot)
    else if selectedScheduleId = [99, 117, 115, 116, 111, 109] then
      if form.customStartDate.isEmpty || form.customEndDate.isEmpty then
        .error (.toast .customTimes)
      else .ok (.str form.customStartDate, .str form.customEndDate)
    else
      match schedules.find? fun s => s.schedule_id.strictEq (.str selectedScheduleId) with
      | some selectedSchedule => .ok (selectedSchedule.start_time, selectedSchedule.end_time)
      | none => .error .threw
  else
    if form.startDate.isEmpty || form.endDate.isEmpty then .error (.toast .startEndTimes)
    else .ok (.str form.startDate, .str form.endDate)

/-- The handler `bookingForm.onsubmit`, up to the sending of the request;
whether `new Date(v)` is a valid date is a parameter. -/
def onsubmit (hasSchedule : Bool) (schedules : List Schedule) (validDate : JsValue → Bool)
    (form : BookingForm) : SubmitResult :=
  let serviceType := trim form.serviceType
  let description := trim form.description
  let address := trim form.address
  let city := trim form.city
  let postalCode := trim form.postalCode
  let province := trim form.province
  let country := trim form.country
  let latitude := form.latitude
  let longitude := form.longitude
  if serviceType.isEmpty || description.isEmpty || address.isEmpty || city.isEmpty ||
      postalCode.isEmpty || province.isEmpty || country.isEmpty then
    .toast .requiredFields
  else if latitude.isEmpty || longitude.isEmpty then .toast .validAddress
  else
    match determineTimes hasSchedule schedules form with
    | .error r => r
    | .ok (startDate, endDate) =>
      if validDate startDate && validDate endDate then
        .sent
          { service_type := serviceType
            description := description
            start_date := startDate
            end_date := endDate
            client_address := address
            client_city := city
            client_postal_code := postalCode
            client_province := province
            client_country := country
            client_latitude := latitude
            client_longitude := longitude }
      else .bodyFailed

/-! ## Definitions worded after the claims -/

/-- The city as the claim words it: the city if present, otherwise the town,
otherwise the village, otherwise the empty string. -/
def cityIfPresent (a : Address) : JsString :=
  match a.city with
  | some c => c
  | none =>
    match a.town with
    | some t => t
    | none =>
      match a.village with
      | some v => v
      | none => []

/-- The first of the given properties that is present and not the empty
string, or the empty string when there is none. -/
def firstNonEmpty : List (Option JsString) → JsString
  | [] => []
  | none :: rest => firstNonEmpty rest
  | some v :: rest => if v = [] then firstNonEmpty rest else v

/-- The rating a favourite is ordered by, as the claim words it: the value of
its rating, a missing rating counting as 0. -/
def ratingValue (tech : Favorite) : ℚ :=
  match tech.rating with
  | some q => q.value
  | none => 0

/-- The icons of a rating `r` between 0 and 5 as the claim words them:
`floor r` full stars, then a half star if the fractional part of `r` is at
least 1/2 and `floor r < 5`, then empty stars up to five icons. -/
def starsAsStated (r : ℚ) : List Star :=
  let fullStars := ⌊r⌋.toNat
  let halfStar : List Star := if 1 / 2 ≤ Int.fract r ∧ ⌊r⌋ < 5 then [.half] else []
  List.replicate fullStars .full ++ halfStar ++
    List.replicate (5 - fullStars - halfStar.length) .empty

/-! ## Example inputs -/

/-- The code units of `Lon`. -/
def queryLon : JsString := [76, 111, 110]

/-- The code units of `Long`. -/
def queryLong : JsString := [76, 111, 110, 103]

/-- A trace with two requests, for `Lon` and then for `Long`. -/
def staleTrace : List Event :=
  [.input queryLon, .timerFire, .input queryLong, .timerFire]

/-- A geocoding candidate: `London, UK`. -/
def london : Result where
  display_name := [76, 111, 110, 100, 111, 110, 44, 32, 85, 75]
  lat := [53, 49, 46, 53]
  lon := [45, 48, 46, 49]
  address := ⟨none, none, some [76, 111, 110, 100, 111, 110], none, none, none, none,
    some [85, 75]⟩

/-- An address whose city is present but empty, with a town. -/
def emptyCityAddress : Address :=
  ⟨none, none, some [], some [80, 97, 97, 114, 108], none, none, none, none⟩

/-- A geocoding candidate with `emptyCityAddress`. -/
def paarl : Result where
  display_name := [80, 97, 97, 114, 108]
  lat := [45, 51, 51, 46, 55]
  lon := [49, 56, 46, 57]
  address := emptyCityAddress

/-- The signup trace of C3: a request for `Lon` is issued, then the user types
`Long`. -/
def signupStaleTrace : List Event :=
  [.input queryLon, .timerFire, .input queryLong]

/-- The signup trace of C8: two items are rendered, ArrowDown is pressed twice,
then a new query is answered with one result. -/
def signupShrinkTrace : List Event :=
  [.input queryLon, .timerFire, .response 0 (.ok [london, paarl]),
    .keydown .arrowDown, .keydown .arrowDown,
    .input queryLong, .timerFire, .response 1 (.ok [london])]

/-- A response with six results, one more than `resultLimit`. -/
def sixResults : List Result := [london, paarl, london, paarl, london, paarl]

/-- The code units of `Lond`. -/
def queryLond : JsString := [76, 111, 110, 100]

/-- A trace that renders `london` and `paarl` for the query `Lon`. -/
def renderedTrace : List Event :=
  [.input queryLon, .timerFire, .response 0 (.ok [london, paarl])]

/-- A trace in which a suggestion is committed while the debounce timer for
`Lond` is armed. -/
def commitWhileArmedTrace : List Event :=
  renderedTrace ++ [.input queryLond, .click (.item 0)]

/-- A trace in which `london` is committed and the address field is then
emptied. -/
def clearedAfterCommitTrace : List Event :=
  renderedTrace ++ [.click (.item 0), .input []]

/-- A trace that leaves two items rendered and the value `Lo` in the address
field. -/
def shortValueTrace : List Event :=
  renderedTrace ++ [.input [76, 111]]

/-- A completed booking with the id `b1`. -/
def doneBooking : Booking := ⟨.str [98, 49], completedStatus, []⟩

/-- A review of booking `b1` with rating 5 and an empty comment. -/
def blankReview : Review :=
  ⟨.str [98, 49], .str [114, 49], .num (JsNum.ofInt 5), .str []⟩

/-- A second review of booking `b1`, with rating 4 and the comment `ok`. -/
def laterReview : Review :=
  ⟨.str [98, 49], .str [114, 50], .num (JsNum.ofInt 4), .str [111, 107]⟩

/-- A filled-in booking form of a technician without a schedule. -/
def filledForm : BookingForm where
  serviceType := [80]
  description := [32, 108, 101, 97, 107]
  address := [76, 111, 110, 100, 111, 110]
  city := [76, 111, 110, 100, 111, 110]
  postalCode := [49]
  province := [69]
  country := [85, 75]
  latitude := [53, 49, 46, 53]
  longitude := [45, 48, 46, 49]
  scheduleSelect := []
  customStartDate := []
  customEndDate := []
  startDate := [50, 48, 50, 53]
  endDate := [50, 48, 50, 54]

/-- Three favourites with the ratings 3, none and 9/2. -/
def threeFavorites : List Favorite :=
  [⟨some ⟨3, 1⟩, []⟩, ⟨none, []⟩, ⟨some ⟨9, 2⟩, []⟩]

/-- The request body that `filledForm` is submitted with. -/
def filledBody : BookingPost where
  service_type := [80]
  description := [108, 101, 97, 107]
  start_date := .str [50, 48, 50, 53]
  end_date := .str [50, 48, 50, 54]
  client_address := [76, 111, 110, 100, 111, 110]
  client_city := [76, 111, 110, 100, 111, 110]
  client_postal_code := [49]
  client_province := [69]
  client_country := [85, 75]
  client_latitude := [53, 49, 46, 53]
  client_longitude := [45, 48, 46, 49]

/-! ## Theorems -/

theorem length_abortRequest (rs : List Request) (c : Nat) :
    (abortRequest rs c).length = rs.length := by
  unfold abortRequest
  split <;> simp

theorem length_settleRequest (rs : List Request) (c : Nat) :
    (settleRequest rs c).length = rs.length := by
  unfold settleRequest
  split <;> simp

theorem map_query_abortRequest (rs : List Request) (c : Nat) :
    (abortRequest rs c).map Request.query = rs.map Request.query := by
  unfold abortRequest
  split
  · next r h =>
    apply List.ext_getElem?
    intro i
    simp only [List.getElem?_map, List.getElem?_set]
    by_cases hc : c = i
    · subst hc
      have hlt : c < rs.length := (List.getElem?_eq_some_iff.mp h).1
      simp [h, hlt]
    · simp [hc]
  · rfl

theorem map_query_settleRequest (rs : List Request) (c : Nat) :
    (settleRequest rs c).map Request.query = rs.map Request.query := by
  unfold settleRequest
  split
  · next r h =>
    apply List.ext_getElem?
    intro i
    simp only [List.getElem?_map, List.getElem?_set]
    by_cases hc : c = i
    · subst hc
      have hlt : c < rs.length := (List.getElem?_eq_some_iff.mp h).1
      simp [h, hlt]
    · simp [hc]
  · rfl

theorem getElem?_abortRequest {rs : List Request} {c id : Nat} {r : Request}
    (h : (abortRequest rs c)[id]? = some r) :
    (id = c ∧ r.aborted = true) ∨ (id ≠ c ∧ rs[id]? = some r) := by
  unfold abortRequest at h
  split at h
  · next r0 h0 =>
    rw [List.getElem?_set] at h
    by_cases hc : c = id
    · subst hc
      simp [h0] at h
      left
      exact ⟨rfl, by rw [← h.2]⟩
    · simp [hc] at h
      right
      exact ⟨fun e => hc e.symm, h⟩
  · next hnone =>
    right
    refine ⟨?_, h⟩
    intro e
    subst e
    rw [hnone] at h
    cases h

theorem getElem?_settleRequest {rs : List Request} {c id : Nat} {r : Request}
    (h : (settleRequest rs c)[id]? = some r) :
    (id = c ∧ r.settled = true) ∨ (id ≠ c ∧ rs[id]? = some r) := by
  unfold settleRequest at h
  split at h
  · next r0 h0 =>
    rw [List.getElem?_set] at h
    by_cases hc : c = id
    · subst hc
      simp [h0] at h
      left
      exact ⟨rfl, by rw [← h.2]⟩
    · simp [hc] at h
      right
      exact ⟨fun e => hc e.symm, h⟩
  · next hnone =>
    right
    refine ⟨?_, h⟩
    intro e
    subst e
    rw [hnone] at h
    cases h

theorem length_toggleActive (a : Int) (l : List Item) (i : Nat) :
    (toggleActive a i l).length = l.length := by
  induction l generalizing i with
  | nil => rfl
  | cons x xs ih => simp [toggleActive, ih]

theorem aborted_abortRequest {rs : List Request} {id : Nat} {r : Request} (c : Nat)
    (h : rs[id]? = some r) (hab : r.aborted = true) :
    ∃ r1, (abortRequest rs c)[id]? = some r1 ∧ r1.aborted = true := by
  unfold abortRequest
  split
  · next r0 h0 =>
    rw [List.getElem?_set]
    by_cases hc : c = id
    · subst hc
      have hlt : c < rs.length := (List.getElem?_eq_some_iff.mp h).1
      exact ⟨{ r0 with aborted := true }, by simp [hlt], rfl⟩
    · exact ⟨r, by simp [hc, h], hab⟩
  · exact ⟨r, h, hab⟩

theorem aborted_settleRequest {rs : List Request} {id : Nat} {r : Request} (c : Nat)
    (h : rs[id]? = some r) (hab : r.aborted = true) :
    ∃ r1, (settleRequest rs c)[id]? = some r1 ∧ r1.aborted = true := by
  unfold settleRequest
  split
  · next r0 h0 =>
    rw [List.getElem?_set]
    by_cases hc : c = id
    · subst hc
      have hlt : c < rs.length := (List.getElem?_eq_some_iff.mp h).1
      have hr0 : r0 = r := by
        rw [h] at h0
        exact (Option.some.inj h0).symm
      exact ⟨{ r0 with settled := true }, by simp [hlt], by rw [hr0]; exact hab⟩
    · exact ⟨r, by simp [hc, h], hab⟩
  · exact ⟨r, h, hab⟩

theorem filter_pending_length_le_one (l : List Request)
    (h : ∀ (id : Nat) (r : Request), l[id]? = some r → r.pending = true → id + 1 = l.length) :
    (l.filter Request.pending).length ≤ 1 := by
  rcases List.eq_nil_or_concat l with hnil | ⟨l1, x, hl⟩
  · simp [hnil]
  · rw [List.concat_eq_append] at hl
    subst hl
    have hfront : l1.filter Request.pending = [] := by
      rw [List.filter_eq_nil_iff]
      intro a ha hp
      obtain ⟨i, hi, hget⟩ := List.getElem_of_mem ha
      have h1 : (l1 ++ [x])[i]? = some a := by
        rw [List.getElem?_append_left hi, List.getElem?_eq_getElem hi, hget]
      have := h i a h1 hp
      simp at this
      omega
    rw [List.filter_append, hfront]
    simp only [List.nil_append]
    exact (List.length_filter_le _ _).trans (by simp)

namespace Widget

theorem updateActiveSuggestion_frame (s : Widget) :
    (updateActiveSuggestion s).requests = s.requests ∧
    (updateActiveSuggestion s).currentRequest = s.currentRequest ∧
    (updateActiveSuggestion s).debounceTimer = s.debounceTimer ∧
    (updateActiveSuggestion s).activeSuggestionIndex = s.activeSuggestionIndex ∧
    (updateActiveSuggestion s).items.length = s.items.length ∧
    (s.panel = .placeholder .loading → (updateActiveSuggestion s).panel = .placeholder .loading) := by
  unfold updateActiveSuggestion
  split
  · simp
  · next l h =>
    simp [items, h, Panel.suggestionItems, length_toggleActive]

theorem inv_init : Inv init := by
  constructor
  · intro id r h
    simp [init] at h
  · left
    rfl

theorem inv_of_frame {s t : Widget} (hs : Inv s) (hr : t.requests = s.requests)
    (hc : t.currentRequest = s.currentRequest) (hd : t.debounceTimer = s.debounceTimer)
    (ha : t.activeSuggestionIndex = s.activeSuggestionIndex)
    (hl : t.items.length = s.items.length)
    (hp : s.panel = .placeholder .loading → t.panel = .placeholder .loading) : Inv t := by
  constructor
  · intro id r h hpend
    rw [hr] at h
    obtain ⟨h1, h2, h3, h4⟩ := hs.pending id r h hpend
    exact ⟨hc.trans h1, hd.trans h2, hp h3, by rw [hr]; exact h4⟩
  · rw [ha, hl]
    exact hs.active

theorem inv_onInput {s : Widget} (hs : Inv s) (value : JsString) : Inv (onInput s value) := by
  have key : ∀ t : Widget,
      t.requests = (match s.currentRequest with
        | some c => abortRequest s.requests c
        | none => s.requests) →
      t.activeSuggestionIndex = s.activeSuggestionIndex → t.panel = s.panel → Inv t := by
    intro t hr ha hp
    constructor
    · intro id r h hpend
      exfalso
      rw [hr] at h
      simp only [Request.pending, Bool.and_eq_true, Bool.not_eq_true'] at hpend
      cases hc : s.currentRequest with
      | none =>
        rw [hc] at h
        have := (hs.pending id r h (by simp [Request.pending, hpend])).1
        rw [hc] at this
        cases this
      | some c =>
        rw [hc] at h
        rcases getElem?_abortRequest h with ⟨_, hab⟩ | ⟨hne, h0⟩
        · rw [hpend.2] at hab
          cases hab
        · have := (hs.pending id r h0 (by simp [Request.pending, hpend])).1
          rw [hc] at this
          exact hne (Option.some.inj this).symm
    · simp only [items, ha, hp]
      exact hs.active
  unfold onInput
  cases hc : s.currentRequest <;> simp only [] <;> split <;> apply key <;> simp [hc]

theorem no_pending_of_timer {s : Widget} (hs : Inv s) {q : JsString}
    (hq : s.debounceTimer = some q) (id : Nat) (r : Request)
    (h : s.requests[id]? = some r) : r.pending = false := by
  cases hp : r.pending with
  | false => rfl
  | true =>
    have := (hs.pending id r h hp).2.1
    rw [hq] at this
    cases this

theorem inv_onTimer {s : Widget} (hs : Inv s) : Inv (onTimer s) := by
  unfold onTimer
  split
  · next q hq =>
    constructor
    · intro id r h hpend
      simp only [fetchAddressSuggestions] at h ⊢
      rcases Nat.lt_or_ge id s.requests.length with hlt | hge
      · rw [List.getElem?_append_left hlt] at h
        rw [no_pending_of_timer hs hq id r h] at hpend
        cases hpend
      · rcases Nat.eq_or_lt_of_le hge with heq | hgt
        · simp [heq]
        · rw [List.getElem?_eq_none (by simp; omega)] at h
          cases h
    · left
      rfl
  · exact hs

theorem inv_onResponse {s : Widget} (hs : Inv s) (id : Nat) (o : Outcome) :
    Inv (onResponse s id o) := by
  unfold onResponse
  split
  · exact hs
  · next r0 h0 =>
    split
    · exact hs
    · next hset =>
      split
      · next hab =>
        constructor
        · intro id1 r h hpend
          simp only at h ⊢
          rcases getElem?_settleRequest h with ⟨_, hst⟩ | ⟨_, h1⟩
          · simp [Request.pending, hst] at hpend
          · rw [length_settleRequest]
            exact hs.pending id1 r h1 hpend
        · exact hs.active
      · next hab =>
        have hp0 : r0.pending = true := by simp [Request.pending, hset, hab]
        obtain ⟨hcur, -, hpanel, -⟩ := hs.pending id r0 h0 hp0
        have hact : s.activeSuggestionIndex = -1 := by
          rcases hs.active with h | ⟨h1, h2⟩
          · exact h
          · simp [items, hpanel, Panel.suggestionItems] at h2
            omega
        have hnone : ∀ (id1 : Nat) (r : Request), (settleRequest s.requests id)[id1]? = some r →
            r.pending = true → False := by
          intro id1 r h hpend
          rcases getElem?_settleRequest h with ⟨_, hst⟩ | ⟨hne, h1⟩
          · simp [Request.pending, hst] at hpend
          · have := (hs.pending id1 r h1 hpend).1
            rw [hcur] at this
            exact hne (Option.some.inj this).symm
        split
        · split
          · constructor
            · intro id1 r h hpend
              exact (hnone id1 r h hpend).elim
            · left
              exact hact
          · constructor
            · intro id1 r h hpend
              exact (hnone id1 r h hpend).elim
            · left
              exact hact
        · constructor
          · intro id1 r h hpend
            exact (hnone id1 r h hpend).elim
          · left
            exact hact

theorem inv_commit {s : Widget} (hs : Inv s) (item : Item) (t : ClickTarget) :
    Inv (onModalClick (itemClick s item) t) := by
  apply inv_of_frame hs <;>
    cases t <;> cases hm : s.map <;>
    simp [onModalClick, itemClick, updateMapPreview, items, hm]

theorem inv_setActive {s : Widget} (hs : Inv s) (a : Int)
    (ha : a = -1 ∨ (0 ≤ a ∧ a < (s.items.length : Int))) :
    Inv (updateActiveSuggestion { s with activeSuggestionIndex := a }) := by
  obtain ⟨h1, h2, h3, h4, h5, h6⟩ :=
    updateActiveSuggestion_frame { s with activeSuggestionIndex := a }
  constructor
  · intro id r h hpend
    rw [h1] at h
    rw [h2, h3]
    obtain ⟨x, y, z, w⟩ := hs.pending id r h hpend
    exact ⟨x, y, h6 z, by rw [h1]; exact w⟩
  · rw [h4, h5]
    exact ha

theorem inv_onKeydown {s : Widget} (hs : Inv s) (key : Key) : Inv (onKeydown s key) := by
  cases key with
  | arrowDown =>
    apply inv_setActive hs
    have := hs.active
    omega
  | arrowUp =>
    apply inv_setActive hs
    have := hs.active
    omega
  | enter =>
    simp only [onKeydown]
    split
    · split
      · exact inv_commit hs _ _
      · exact inv_of_frame hs rfl rfl rfl rfl rfl id
    · exact hs
  | other => exact hs

theorem inv_onMouseover {s : Widget} (hs : Inv s) (index : Nat) :
    Inv (onMouseover s index) := by
  unfold onMouseover
  split
  · next hlt =>
    apply inv_setActive hs
    right
    omega
  · exact hs

theorem inv_onClick {s : Widget} (hs : Inv s) (t : ClickTarget) : Inv (onClick s t) := by
  cases t with
  | item k =>
    simp only [onClick]
    split
    · exact inv_commit hs _ _
    · exact hs
  | input => exact hs
  | elsewhere => exact inv_of_frame hs rfl rfl rfl rfl rfl id

theorem inv_onFocus {s : Widget} (hs : Inv s) : Inv (onFocus s) := by
  unfold onFocus
  split
  · exact inv_of_frame hs rfl rfl rfl rfl rfl id
  · exact hs

theorem inv_step {s : Widget} (hs : Inv s) (e : Event) : Inv (step s e) := by
  cases e with
  | input value => exact inv_onInput hs value
  | timerFire => exact inv_onTimer hs
  | response id o => exact inv_onResponse hs id o
  | keydown k => exact inv_onKeydown hs k
  | mouseover k => exact inv_onMouseover hs k
  | click t => exact inv_onClick hs t
  | focus => exact inv_onFocus hs

theorem inv_run {s : Widget} (hs : Inv s) (events : List Event) : Inv (run s events) := by
  induction events generalizing s with
  | nil => exact hs
  | cons e es ih => exact ih (inv_step hs e)

theorem run_append (s : Widget) (es fs : List Event) :
    run s (es ++ fs) = run (run s es) fs := by
  simp [run, List.foldl_append]

theorem visible_settle (s : Widget) (rs : List Request) :
    visible { s with requests := rs } = visible s := rfl

/-- C1: over every sequence of events of the booking modal, a response that
does not belong to the most recently issued request (an earlier request, or no
request at all) changes neither the panel nor any other part of the widget
besides the bookkeeping of that request; so a response that updates the panel
belongs to the most recently issued request. -/
theorem response_applied_only_for_latest_request (events : List Event) (id : Nat)
    (o : Outcome) (h : id + 1 ≠ (run init events).requests.length) :
    (step (run init events) (.response id o)).visible = (run init events).visible := by
  have hs : Inv (run init events) := inv_run inv_init events
  generalize run init events = s at h hs
  simp only [step, onResponse]
  split
  · rfl
  · next r h0 =>
    split
    · rfl
    · next hset =>
      split
      · rfl
      · next hab =>
        have hp0 : r.pending = true := by simp [Request.pending, hset, hab]
        exact (h (hs.pending id r h0 hp0).2.2.2).elim

theorem response_applied_only_for_latest_request_witness :
    0 + 1 ≠ (run init staleTrace).requests.length ∧
    (step (run init staleTrace) (.response 0 (.ok [london]))).visible =
      (run init staleTrace).visible :=
  ⟨by decide, response_applied_only_for_latest_request staleTrace 0 (.ok [london]) (by decide)⟩

theorem aborted_step {s : Widget} {id : Nat} {r : Request} (e : Event)
    (h : s.requests[id]? = some r) (hab : r.aborted = true) :
    ∃ r1, (step s e).requests[id]? = some r1 ∧ r1.aborted = true := by
  cases e with
  | input value =>
    simp only [step, onInput]
    cases hc : s.currentRequest with
    | none => split <;> exact ⟨r, h, hab⟩
    | some c => split <;> exact aborted_abortRequest c h hab
  | timerFire =>
    simp only [step, onTimer]
    split
    · have hlt : id < s.requests.length := (List.getElem?_eq_some_iff.mp h).1
      exact ⟨r, by simp [fetchAddressSuggestions, List.getElem?_append_left hlt, h], hab⟩
    · exact ⟨r, h, hab⟩
  | response id1 o =>
    simp only [step, onResponse]
    split
    · exact ⟨r, h, hab⟩
    · split
      · exact ⟨r, h, hab⟩
      · split
        · exact aborted_settleRequest id1 h hab
        · split
          · split <;> exact aborted_settleRequest id1 h hab
          · exact aborted_settleRequest id1 h hab
  | keydown k =>
    cases k with
    | arrowDown =>
      simp only [step, onKeydown, (updateActiveSuggestion_frame _).1]
      exact ⟨r, h, hab⟩
    | arrowUp =>
      simp only [step, onKeydown, (updateActiveSuggestion_frame _).1]
      exact ⟨r, h, hab⟩
    | enter =>
      simp only [step, onKeydown]
      split
      · split
        · refine ⟨r, ?_, hab⟩
          cases hm : s.map <;> simp [onModalClick, itemClick, updateMapPreview, hm, h]
        · exact ⟨r, h, hab⟩
      · exact ⟨r, h, hab⟩
    | other => exact ⟨r, h, hab⟩
  | mouseover k =>
    simp only [step, onMouseover]
    split
    · rw [(updateActiveSuggestion_frame _).1]
      exact ⟨r, h, hab⟩
    · exact ⟨r, h, hab⟩
  | click t =>
    cases t with
    | item k =>
      simp only [step, onClick]
      split
      · refine ⟨r, ?_, hab⟩
        cases hm : s.map <;> simp [onModalClick, itemClick, updateMapPreview, hm, h]
      · exact ⟨r, h, hab⟩
    | input => exact ⟨r, h, hab⟩
    | elsewhere => exact ⟨r, h, hab⟩
  | focus =>
    simp only [step, onFocus]
    split <;> exact ⟨r, h, hab⟩

theorem aborted_run {s : Widget} {id : Nat} {r : Request} (events : List Event)
    (h : s.requests[id]? = some r) (hab : r.aborted = true) :
    ∃ r1, (run s events).requests[id]? = some r1 ∧ r1.aborted = true := by
  induction events generalizing s r with
  | nil => exact ⟨r, h, hab⟩
  | cons e es ih =>
    obtain ⟨r1, h1, hab1⟩ := aborted_step e h hab
    exact ih h1 hab1

theorem aborted_resolution_silent (s : Widget) (id : Nat) (r : Request)
    (events : List Event) (o : Outcome)
    (h : s.requests[id]? = some r) (hab : r.aborted = true) :
    (step (run s events) (.response id o)).visible = (run s events).visible := by
  obtain ⟨r1, h1, hab1⟩ := aborted_run events h hab
  generalize run s events = t at h1
  simp only [step, onResponse, h1]
  split
  · rfl
  · simp [hab1, visible]

theorem onInput_aborts_current (s : Widget) (id : Nat) (r : Request) (value : JsString)
    (h : s.requests[id]? = some r) (hc : s.currentRequest = some id) :
    (onInput s value).requests[id]? = some { r with aborted := true } := by
  have hlt : id < s.requests.length := (List.getElem?_eq_some_iff.mp h).1
  unfold onInput
  simp only [hc]
  split <;> simp [abortRequest, h, hlt]

/-- C2: when a request of the booking modal is pending in a reachable state and
an input event follows, that event aborts the request, and the resolution of
the request, however many events later and whether the service answers with
data or with an error, leaves the form fields, the active index, the content
and visibility of the panel and the map unchanged; in particular no error row
is rendered for it. -/
theorem aborted_request_resolution_is_silent (before : List Event) (id : Nat)
    (r : Request) (value : JsString) (events : List Event) (o : Outcome)
    (h : (run init before).requests[id]? = some r) (hp : r.pending = true) :
    (step (run init before) (.input value)).requests[id]? =
      some { r with aborted := true } ∧
    (step (run (step (run init before) (.input value)) events) (.response id o)).visible =
      (run (step (run init before) (.input value)) events).visible := by
  have hc := ((inv_run inv_init before).pending id r h hp).1
  have hab := onInput_aborts_current (run init before) id r value h hc
  exact ⟨hab, aborted_resolution_silent _ id _ events o hab rfl⟩

theorem aborted_request_resolution_is_silent_witness :
    (run init [.input queryLon, .timerFire]).requests[0]? =
      some ⟨queryLon, false, false⟩ ∧
    (step (run (step (run init [.input queryLon, .timerFire]) (.input queryLong))
      [.timerFire]) (.response 0 .failed)).visible =
    (run (step (run init [.input queryLon, .timerFire]) (.input queryLong))
      [.timerFire]).visible :=
  ⟨by decide,
    (aborted_request_resolution_is_silent [.input queryLon, .timerFire] 0
      ⟨queryLon, false, false⟩ queryLong [.timerFire] .failed (by decide) (by decide)).2⟩

/-- C4: in every reachable state of the booking modal at most one issued
request is pending, and whenever the debounce timer is armed, which is when
`fetchAddressSuggestions` can be called, no issued request is pending. -/
theorem at_most_one_pending_request (events : List Event) :
    ((run init events).requests.filter Request.pending).length ≤ 1 ∧
    ∀ query, (run init events).debounceTimer = some query →
      (run init events).requests.filter Request.pending = [] := by
  have hs : Inv (run init events) := inv_run inv_init events
  constructor
  · exact filter_pending_length_le_one _ (fun id r h hp => (hs.pending id r h hp).2.2.2)
  · intro query hq
    rw [List.filter_eq_nil_iff]
    intro a ha hp
    obtain ⟨i, hi, hget⟩ := List.getElem_of_mem ha
    have h1 : (run init events).requests[i]? = some a := by
      rw [List.getElem?_eq_getElem hi, hget]
    rw [no_pending_of_timer hs hq i a h1] at hp
    cases hp

theorem at_most_one_pending_request_witness :
    (run init [.input queryLon, .timerFire, .input queryLong]).debounceTimer =
      some queryLong ∧
    (run init [.input queryLon, .timerFire,
      .input queryLong]).requests.filter Request.pending = [] :=
  ⟨by decide, (at_most_one_pending_request _).2 queryLong (by decide)⟩

/-- C7: in every reachable state of the booking modal, over all sequences of
input, timer, response, key, hover, click and focus events, the active index
is `-1` or the position of a rendered suggestion item. -/
theorem active_index_in_range (events : List Event) :
    (run init events).activeSuggestionIndex = -1 ∨
    (0 ≤ (run init events).activeSuggestionIndex ∧
      (run init events).activeSuggestionIndex < ((run init events).items.length : Int)) :=
  (inv_run inv_init events).active

theorem queries_onInput (s : Widget) (value : JsString) :
    (onInput s value).queries = s.queries := by
  unfold onInput
  cases hc : s.currentRequest <;> simp only [] <;> split <;>
    simp [queries, map_query_abortRequest]

theorem debounceTimer_onInput (s : Widget) (value : JsString) :
    (onInput s value).debounceTimer =
      if (trim value).length < 3 then none else some (trim value) := by
  unfold onInput
  cases hc : s.currentRequest <;> simp only [] <;> split <;> rfl

theorem panelVisible_onInput (s : Widget) (value : JsString)
    (h : (trim value).length < 3) : (onInput s value).panelVisible = false := by
  unfold onInput
  cases hc : s.currentRequest <;> simp [h]

theorem queries_onTimer (s : Widget) :
    (onTimer s).queries = s.queries ++ s.debounceTimer.toList := by
  unfold onTimer
  split
  · next q hq => simp [queries, fetchAddressSuggestions, hq]
  · next hq => simp [hq]

theorem debounceTimer_onTimer (s : Widget) : (onTimer s).debounceTimer = none := by
  unfold onTimer
  split
  · rfl
  · next hq => exact hq

theorem step_frame (s : Widget) (e : Event) (he : e.isInputOrTimer = false) :
    (step s e).debounceTimer = s.debounceTimer ∧ (step s e).queries = s.queries := by
  cases e with
  | input value => cases he
  | timerFire => cases he
  | response id o =>
    simp only [step, onResponse]
    split
    · exact ⟨rfl, rfl⟩
    · split
      · exact ⟨rfl, rfl⟩
      · split
        · exact ⟨rfl, by simp [queries, map_query_settleRequest]⟩
        · split
          · split <;>
              exact ⟨rfl, by simp [queries, renderAddressSuggestions, map_query_settleRequest]⟩
          · exact ⟨rfl, by simp [queries, map_query_settleRequest]⟩
  | keydown k =>
    cases k with
    | arrowDown =>
      simp only [step, onKeydown, queries, (updateActiveSuggestion_frame _).1,
        (updateActiveSuggestion_frame _).2.2.1, and_self]
    | arrowUp =>
      simp only [step, onKeydown, queries, (updateActiveSuggestion_frame _).1,
        (updateActiveSuggestion_frame _).2.2.1, and_self]
    | enter =>
      simp only [step, onKeydown]
      split
      · split
        · cases hm : s.map <;>
            simp [onModalClick, itemClick, updateMapPreview, hm, queries]
        · exact ⟨rfl, rfl⟩
      · exact ⟨rfl, rfl⟩
    | other => exact ⟨rfl, rfl⟩
  | mouseover k =>
    simp only [step, onMouseover]
    split
    · simp only [queries, (updateActiveSuggestion_frame _).1,
        (updateActiveSuggestion_frame _).2.2.1, and_self]
    · exact ⟨rfl, rfl⟩
  | click t =>
    cases t with
    | item k =>
      simp only [step, onClick]
      split
      · cases hm : s.map <;>
          simp [onModalClick, itemClick, updateMapPreview, hm, queries]
      · exact ⟨rfl, rfl⟩
    | input => exact ⟨rfl, rfl⟩
    | elsewhere => exact ⟨rfl, rfl⟩
  | focus =>
    simp only [step, onFocus]
    split <;> exact ⟨rfl, rfl⟩

theorem quiet_step (t : Widget) (e : Event) (ht : t.debounceTimer = none)
    (he : ∀ v, e = Event.input v → (trim v).length < 3) :
    (step t e).debounceTimer = none ∧ (step t e).queries = t.queries := by
  cases e with
  | input value =>
    have hshort := he value rfl
    exact ⟨by simp [step, debounceTimer_onInput, hshort], queries_onInput t value⟩
  | timerFire =>
    exact ⟨debounceTimer_onTimer t, by simp [step, queries_onTimer, ht]⟩
  | response id o =>
    obtain ⟨h1, h2⟩ := step_frame t (.response id o) rfl
    exact ⟨h1.trans ht, h2⟩
  | keydown k =>
    obtain ⟨h1, h2⟩ := step_frame t (.keydown k) rfl
    exact ⟨h1.trans ht, h2⟩
  | mouseover k =>
    obtain ⟨h1, h2⟩ := step_frame t (.mouseover k) rfl
    exact ⟨h1.trans ht, h2⟩
  | click c =>
    obtain ⟨h1, h2⟩ := step_frame t (.click c) rfl
    exact ⟨h1.trans ht, h2⟩
  | focus =>
    obtain ⟨h1, h2⟩ := step_frame t .focus rfl
    exact ⟨h1.trans ht, h2⟩

theorem quiet_run (t : Widget) (events : List Event) (ht : t.debounceTimer = none)
    (he : ∀ v, Event.input v ∈ events → (trim v).length < 3) :
    (run t events).debounceTimer = none ∧ (run t events).queries = t.queries := by
  induction events generalizing t with
  | nil => exact ⟨ht, rfl⟩
  | cons e es ih =>
    obtain ⟨h1, h2⟩ := quiet_step t e ht (fun v hv => he v (by simp [hv]))
    obtain ⟨h3, h4⟩ := ih (step t e) h1 (fun v hv => he v (by simp [hv]))
    exact ⟨h3, h4.trans h2⟩

theorem Typed.mono {events : List Event} {q : JsString} (h : Typed events q) (e : Event) :
    Typed (events ++ [e]) q := by
  obtain ⟨v, hv, hq⟩ := h
  exact ⟨v, by simp [hv], hq⟩

theorem typed_step (s : Widget) (events : List Event) (e : Event)
    (ht : ∀ q, s.debounceTimer = some q → Typed events q)
    (hq : ∀ q ∈ s.queries, Typed events q) :
    (∀ q, (step s e).debounceTimer = some q → Typed (events ++ [e]) q) ∧
    (∀ q ∈ (step s e).queries, Typed (events ++ [e]) q) := by
  by_cases he : e.isInputOrTimer = false
  · obtain ⟨h1, h2⟩ := step_frame s e he
    rw [h1, h2]
    exact ⟨fun q h => (ht q h).mono e, fun q h => (hq q h).mono e⟩
  · cases e with
    | input value =>
      constructor
      · intro q h
        simp only [step, debounceTimer_onInput] at h
        split at h
        · cases h
        · next hlen =>
          cases h
          exact ⟨value, by simp, rfl, by omega⟩
      · intro q h
        simp only [step, queries_onInput] at h
        exact (hq q h).mono _
    | timerFire =>
      constructor
      · intro q h
        simp [step, debounceTimer_onTimer] at h
      · intro q h
        simp only [step, queries_onTimer, List.mem_append, Option.mem_toList,
          Option.mem_def] at h
        rcases h with h | h
        · exact (hq q h).mono _
        · exact (ht q h).mono _
    | response id o => exact (he rfl).elim
    | keydown k => exact (he rfl).elim
    | mouseover k => exact (he rfl).elim
    | click c => exact (he rfl).elim
    | focus => exact (he rfl).elim

theorem typed_run (s : Widget) (done events : List Event)
    (ht : ∀ q, s.debounceTimer = some q → Typed done q)
    (hq : ∀ q ∈ s.queries, Typed done q) :
    (∀ q, (run s events).debounceTimer = some q → Typed (done ++ events) q) ∧
    (∀ q ∈ (run s events).queries, Typed (done ++ events) q) := by
  induction events generalizing s done with
  | nil => simpa using ⟨ht, hq⟩
  | cons e es ih =>
    obtain ⟨h1, h2⟩ := typed_step s done e ht hq
    have := ih (step s e) (done ++ [e]) h1 h2
    simpa [run] using this

/-- C5: for every state of the booking modal and every input event whose
trimmed value has fewer than 3 code units, the panel is hidden after the event,
no debounce timer is armed, and no request is issued by that event or by any
later events as long as no input event supplies a trimmed value of at least 3
code units; and every request issued from the initial state carries the
trimmed value of an input event, of at least 3 code units. -/
theorem short_input_issues_no_request (s : Widget) (value : JsString)
    (h : (trim value).length < 3) :
    (step s (.input value)).panelVisible = false ∧
    (step s (.input value)).debounceTimer = none ∧
    (∀ events : List Event, (∀ v, Event.input v ∈ events → (trim v).length < 3) →
      (run (step s (.input value)) events).queries = s.queries) ∧
    (∀ (events : List Event) (q : JsString), q ∈ (run init events).queries →
      ∃ v, Event.input v ∈ events ∧ q = trim v ∧ 3 ≤ q.length) := by
  have ht : (step s (.input value)).debounceTimer = none := by
    simp [step, debounceTimer_onInput, h]
  refine ⟨panelVisible_onInput s value h, ht, ?_, ?_⟩
  · intro events he
    exact (quiet_run _ events ht he).2.trans (queries_onInput s value)
  · intro events q hq
    have := (typed_run init [] events (by simp [init]) (by simp [init, queries])).2 q hq
    simpa [Typed] using this

theorem short_input_issues_no_request_witness :
    (trim [32, 76, 111, 32]).length < 3 ∧
    (step (run init [.input queryLon]) (.input [32, 76, 111, 32])).debounceTimer = none ∧
    (run (step (run init [.input queryLon]) (.input [32, 76, 111, 32]))
      [.timerFire, .focus, .input [76], .timerFire]).queries = [] ∧
    (∃ v, Event.input v ∈ staleTrace ∧ queryLong = trim v ∧ 3 ≤ queryLong.length) :=
  ⟨by decide,
    (short_input_issues_no_request (run init [.input queryLon]) [32, 76, 111, 32]
      (by decide)).2.1,
    (short_input_issues_no_request (run init [.input queryLon]) [32, 76, 111, 32]
      (by decide)).2.2.1 [.timerFire, .focus, .input [76], .timerFire]
      (by
        intro v hv
        simp at hv
        subst hv
        decide),
    (short_input_issues_no_request (run init [.input queryLon]) [32, 76, 111, 32]
      (by decide)).2.2.2 staleTrace queryLong (by decide)⟩

theorem queries_run_inputs (s : Widget) (values : List JsString) :
    (run s (values.map Event.input)).queries = s.queries := by
  induction values generalizing s with
  | nil => rfl
  | cons v vs ih =>
    simp only [List.map_cons, run, List.foldl_cons]
    exact (ih (step s (.input v))).trans (queries_onInput s v)

/-- C6: for every state and every non-empty sequence of input events with no
timer firing in between, followed by the debounce timer firing, the requests
issued are none when the last value has fewer than 3 code units after trimming
and otherwise exactly one, whose query is the trimmed last value. -/
theorem debounce_sends_only_last_value (s : Widget) (values : List JsString)
    (last : JsString) :
    (step (run s ((values ++ [last]).map Event.input)) .timerFire).queries =
      s.queries ++ (if 3 ≤ (trim last).length then [trim last] else []) := by
  rw [List.map_append, run_append]
  simp only [List.map_cons, List.map_nil, run, List.foldl_cons, List.foldl_nil, step]
  rw [queries_onTimer, queries_onInput, debounceTimer_onInput]
  have := queries_run_inputs s values
  simp only [run] at this
  rw [this]
  by_cases hl : (trim last).length < 3
  · have : ¬ 3 ≤ (trim last).length := by omega
    simp [hl, this]
  · have : 3 ≤ (trim last).length := by omega
    simp [hl, this]

theorem orEmpty_eq_getD (a : Option JsString) : orEmpty a = a.getD [] := by
  cases a with
  | none => rfl
  | some v => cases v <;> rfl

theorem orEmpty_city (a : Address) :
    orEmpty (jsOr (jsOr a.city a.town) a.village) =
      firstNonEmpty [a.city, a.town, a.village] := by
  rcases a with ⟨_, _, city, town, village, _, _, _⟩
  rcases city with _ | _ | _ <;> rcases town with _ | _ | _ <;>
    rcases village with _ | _ | _ <;> rfl

theorem commit_fields (s : Widget) (item : Item) (t : ClickTarget) (ht : t ≠ .input) :
    (onModalClick (itemClick s item) t).addressValue = item.displayName ∧
    (onModalClick (itemClick s item) t).cityValue =
      firstNonEmpty [item.address.city, item.address.town, item.address.village] ∧
    (onModalClick (itemClick s item) t).postalCodeValue = item.address.postcode.getD [] ∧
    (onModalClick (itemClick s item) t).provinceValue = item.address.state.getD [] ∧
    (onModalClick (itemClick s item) t).countryValue = item.address.country.getD [] ∧
    (onModalClick (itemClick s item) t).latitudeValue = item.lat ∧
    (onModalClick (itemClick s item) t).longitudeValue = item.lon ∧
    (onModalClick (itemClick s item) t).panelVisible = false := by
  cases t with
  | input => exact (ht rfl).elim
  | item k =>
    cases hm : s.map <;> simp only [onModalClick, itemClick, updateMapPreview, hm] <;>
      exact ⟨trivial, orEmpty_city _, orEmpty_eq_getD _, orEmpty_eq_getD _,
        orEmpty_eq_getD _, trivial, trivial, trivial⟩
  | elsewhere =>
    cases hm : s.map <;> simp only [onModalClick, itemClick, updateMapPreview, hm] <;>
      exact ⟨trivial, orEmpty_city _, orEmpty_eq_getD _, orEmpty_eq_getD _,
        orEmpty_eq_getD _, trivial, trivial, trivial⟩

/-- C9, as stated, fails: for a payload whose city is present but empty and
whose town is `Paarl`, committing the item sets the city field to `Paarl`, not
to the payload's city. -/
theorem commit_city_not_city_if_present :
    (step (run init [.input queryLon, .timerFire, .response 0 (.ok [paarl])])
      (.click (.item 0))).cityValue ≠ cityIfPresent paarl.address := by
  decide

/-- C9, amended: a click on a rendered item sets the address field to the
item's display text, the city field to the first of city, town and village
that is present and non-empty (the empty string when there is none), the
postal-code, province and country fields to the payload's postcode, state and
country (the empty string when absent), the latitude and longitude fields to
the item's latitude and longitude, and hides the panel. -/
theorem commit_populates_fields (s : Widget) (k : Nat) (item : Item)
    (h : s.items[k]? = some item) :
    (step s (.click (.item k))).addressValue = item.displayName ∧
    (step s (.click (.item k))).cityValue =
      firstNonEmpty [item.address.city, item.address.town, item.address.village] ∧
    (step s (.click (.item k))).postalCodeValue = item.address.postcode.getD [] ∧
    (step s (.click (.item k))).provinceValue = item.address.state.getD [] ∧
    (step s (.click (.item k))).countryValue = item.address.country.getD [] ∧
    (step s (.click (.item k))).latitudeValue = item.lat ∧
    (step s (.click (.item k))).longitudeValue = item.lon ∧
    (step s (.click (.item k))).panelVisible = false := by
  simp only [step, onClick, h]
  exact commit_fields s item (.item k) (by simp)

theorem commit_populates_fields_witness :
    (run init [.input queryLon, .timerFire, .response 0 (.ok [london, paarl])]).items[1]? =
      some (renderItem paarl) ∧
    (step (run init [.input queryLon, .timerFire, .response 0 (.ok [london, paarl])])
      (.click (.item 1))).cityValue = [80, 97, 97, 114, 108] :=
  ⟨by decide,
    (commit_populates_fields _ 1 (renderItem paarl) (by decide)).2.1.trans (by decide)⟩

/-- C10: when the response of a pending request carries at least one result,
the rendered items are as many as the results and in their order, item `k`
carries the display text (the first three comma-separated parts of
`display_name`, joined by a comma and a space), latitude, longitude and
address of result `k`, and a click on item `k` fills the form from result `k`. -/
theorem rendered_items_follow_response (s : Widget) (id : Nat) (r : Request)
    (data : List Result) (k : Nat) (result : Result)
    (hr : s.requests[id]? = some r) (hp : r.pending = true)
    (hk : data[k]? = some result) :
    (step s (.response id (.ok data))).items.length = data.length ∧
    (∃ item, (step s (.response id (.ok data))).items[k]? = some item ∧
      item.textContent = joinCommaSpace ((splitComma result.display_name).take 3) ∧
      item.displayName = joinCommaSpace ((splitComma result.display_name).take 3) ∧
      item.lat = result.lat ∧ item.lon = result.lon ∧ item.address = result.address) ∧
    (step (step s (.response id (.ok data))) (.click (.item k))).addressValue =
      joinCommaSpace ((splitComma result.display_name).take 3) ∧
    (step (step s (.response id (.ok data))) (.click (.item k))).cityValue =
      firstNonEmpty [result.address.city, result.address.town, result.address.village] ∧
    (step (step s (.response id (.ok data))) (.click (.item k))).postalCodeValue =
      result.address.postcode.getD [] ∧
    (step (step s (.response id (.ok data))) (.click (.item k))).provinceValue =
      result.address.state.getD [] ∧
    (step (step s (.response id (.ok data))) (.click (.item k))).countryValue =
      result.address.country.getD [] ∧
    (step (step s (.response id (.ok data))) (.click (.item k))).latitudeValue = result.lat ∧
    (step (step s (.response id (.ok data))) (.click (.item k))).longitudeValue = result.lon := by
  have hlen : 0 < data.length := by
    have := (List.getElem?_eq_some_iff.mp hk).1
    omega
  have hpend : r.settled = false ∧ r.aborted = false := by
    simpa [Request.pending] using hp
  have hpanel : (step s (.response id (.ok data))).panel = .items (data.map renderItem) := by
    simp [step, onResponse, hr, hpend.1, hpend.2, hlen, renderAddressSuggestions]
  have hitem : (step s (.response id (.ok data))).items[k]? = some (renderItem result) := by
    simp [items, hpanel, Panel.suggestionItems, hk]
  refine ⟨by simp [items, hpanel, Panel.suggestionItems],
    ⟨renderItem result, hitem, rfl, rfl, rfl, rfl, rfl⟩, ?_⟩
  obtain ⟨h1, h2, h3, h4, h5, h6, h7, -⟩ :=
    commit_fields (step s (.response id (.ok data))) (renderItem result) (.item k) (by simp)
  simp only [step, onClick, hitem] at hitem ⊢
  exact ⟨h1, h2, h3, h4, h5, h6, h7⟩

theorem rendered_items_follow_response_witness :
    (run init [.input queryLon, .timerFire]).requests[0]? = some ⟨queryLon, false, false⟩ ∧
    (step (step (run init [.input queryLon, .timerFire]) (.response 0 (.ok [london, paarl])))
      (.click (.item 0))).addressValue = [76, 111, 110, 100, 111, 110, 44, 32, 32, 85, 75] :=
  ⟨by decide,
    (rendered_items_follow_response (run init [.input queryLon, .timerFire]) 0
      ⟨queryLon, false, false⟩ [london, paarl] 0 london (by decide) (by decide)
      (by decide)).2.2.1.trans (by decide)⟩

theorem items_length_commit (s : Widget) (item : Item) (t : ClickTarget) :
    (onModalClick (itemClick s item) t).items.length = s.items.length := by
  cases t <;> cases hm : s.map <;>
    simp [onModalClick, itemClick, updateMapPreview, items, hm]

theorem items_length_step (s : Widget) (e : Event) :
    (step s e).items.length ≤ s.items.length ∨
    ∃ id data, e = .response id (.ok data) ∧ (step s e).items.length = data.length := by
  cases e with
  | input value =>
    left
    simp only [step, onInput]
    cases hc : s.currentRequest <;> simp only [] <;> split <;> simp [items]
  | timerFire =>
    left
    simp only [step, onTimer]
    split
    · simp [fetchAddressSuggestions, items, Panel.suggestionItems]
    · exact Nat.le_refl _
  | response id o =>
    simp only [step, onResponse]
    split
    · exact Or.inl (Nat.le_refl _)
    · split
      · exact Or.inl (Nat.le_refl _)
      · split
        · exact Or.inl (Nat.le_refl _)
        · cases o with
          | ok data =>
            simp only []
            split
            · right
              exact ⟨id, data, rfl, by simp [renderAddressSuggestions, items, Panel.suggestionItems]⟩
            · left
              simp [items, Panel.suggestionItems]
          | failed =>
            left
            simp [items, Panel.suggestionItems]
  | keydown k =>
    left
    cases k with
    | arrowDown =>
      simp only [step, onKeydown, (updateActiveSuggestion_frame _).2.2.2.2.1]
      exact Nat.le_refl _
    | arrowUp =>
      simp only [step, onKeydown, (updateActiveSuggestion_frame _).2.2.2.2.1]
      exact Nat.le_refl _
    | enter =>
      simp only [step, onKeydown]
      split
      · split
        · rw [items_length_commit]
        · exact Nat.le_refl _
      · exact Nat.le_refl _
    | other => exact Nat.le_refl _
  | mouseover k =>
    left
    simp only [step, onMouseover]
    split
    · rw [(updateActiveSuggestion_frame _).2.2.2.2.1]
      exact Nat.le_refl _
    · exact Nat.le_refl _
  | click t =>
    left
    cases t with
    | item k =>
      simp only [step, onClick]
      split
      · rw [items_length_commit]
      · exact Nat.le_refl _
    | input => exact Nat.le_refl _
    | elsewhere => exact Nat.le_refl _
  | focus =>
    left
    simp only [step, onFocus]
    split <;> exact Nat.le_refl _

theorem items_length_run (s : Widget) (events : List Event) (bound : Nat)
    (hs : s.items.length ≤ bound)
    (h : ∀ id data, Event.response id (.ok data) ∈ events → data.length ≤ bound) :
    (run s events).items.length ≤ bound := by
  induction events generalizing s with
  | nil => exact hs
  | cons e es ih =>
    apply ih (step s e)
    · rcases items_length_step s e with hle | ⟨id, data, he, hlen⟩
      · exact hle.trans hs
      · rw [hlen]
        exact h id data (by simp [he])
    · intro id data hmem
      exact h id data (by simp [hmem])

/-- C11, as stated, fails: a successful response with six results is rendered
as six suggestion items. -/
theorem six_results_render_six_items :
    (run init [.input queryLon, .timerFire, .response 0 (.ok sixResults)]).items.length =
      6 := by
  decide

/-- C11, amended: the widget renders one item per result and does not
truncate; over every sequence of events in which each successful response
carries at most `resultLimit` (five) results, the cap the request asks the
service for, the rendered list has at most five entries. -/
theorem rendered_items_within_limit (events : List Event)
    (h : ∀ id data, Event.response id (.ok data) ∈ events → data.length ≤ resultLimit) :
    (run init events).items.length ≤ 5 :=
  items_length_run init events 5 (by decide) h

theorem rendered_items_within_limit_witness :
    (run init renderedTrace).items.length ≤ 5 :=
  rendered_items_within_limit renderedTrace (by
    intro id data hmem
    simp [renderedTrace] at hmem
    obtain ⟨-, hdata⟩ := hmem
    subst hdata
    decide)

theorem activeSuggestionIndex_arrowDown (s : Widget) :
    (step s (.keydown .arrowDown)).activeSuggestionIndex =
      min (s.activeSuggestionIndex + 1) ((s.items.length : Int) - 1) := by
  simp only [step, onKeydown, (updateActiveSuggestion_frame _).2.2.2.1]

theorem activeSuggestionIndex_arrowUp (s : Widget) :
    (step s (.keydown .arrowUp)).activeSuggestionIndex =
      max (s.activeSuggestionIndex - 1) (-1) := by
  simp only [step, onKeydown, (updateActiveSuggestion_frame _).2.2.2.1]

/-- C12: with `n` rendered items, ArrowDown moves the active index from `-1` to
`0` when the list is not empty, and from `i` in `[0, n)` to `min (i+1) (n-1)`;
at the last item it stays at `n-1` and does not wrap to the first item. The
number of items is unchanged. -/
theorem arrowDown_moves_without_wrapping (s : Widget) (i : Int) (n : Nat)
    (hi : s.activeSuggestionIndex = i) (hn : s.items.length = n) :
    (i = -1 → 0 < n → (step s (.keydown .arrowDown)).activeSuggestionIndex = 0) ∧
    (0 ≤ i → i < n →
      (step s (.keydown .arrowDown)).activeSuggestionIndex = min (i + 1) ((n : Int) - 1)) ∧
    (0 ≤ i → i = (n : Int) - 1 →
      (step s (.keydown .arrowDown)).activeSuggestionIndex = (n : Int) - 1) ∧
    (step s (.keydown .arrowDown)).items.length = n := by
  rw [activeSuggestionIndex_arrowDown, hi, hn]
  refine ⟨?_, ?_, ?_, ?_⟩
  · intro h1 h2
    omega
  · intro _ _
    rfl
  · intro h1 h2
    omega
  · simp only [step, onKeydown, (updateActiveSuggestion_frame _).2.2.2.2.1]
    exact hn

theorem arrowDown_moves_without_wrapping_witness :
    (run init (renderedTrace ++ [.keydown .arrowDown, .keydown .arrowDown])).activeSuggestionIndex
      = 1 ∧
    (run init (renderedTrace ++ [.keydown .arrowDown, .keydown .arrowDown])).items.length = 2 ∧
    (step (run init (renderedTrace ++ [.keydown .arrowDown, .keydown .arrowDown]))
      (.keydown .arrowDown)).activeSuggestionIndex = ((2 : Nat) : Int) - 1 := by
  have hi : (run init (renderedTrace ++
      [.keydown .arrowDown, .keydown .arrowDown])).activeSuggestionIndex = 1 := by decide
  have hn : (run init (renderedTrace ++
      [.keydown .arrowDown, .keydown .arrowDown])).items.length = 2 := by decide
  have h := (arrowDown_moves_without_wrapping _ 1 2 hi hn).2.2.1 (by decide) (by decide)
  exact ⟨hi, hn, h⟩

/-- C13: ArrowUp moves the active index from `0` to `-1`, from `i > 0` to
`i-1`, and leaves `-1` at `-1`; it does not wrap to the last item. -/
theorem arrowUp_moves_without_wrapping (s : Widget) (i : Int)
    (hi : s.activeSuggestionIndex = i) :
    (i = 0 → (step s (.keydown .arrowUp)).activeSuggestionIndex = -1) ∧
    (0 < i → (step s (.keydown .arrowUp)).activeSuggestionIndex = i - 1) ∧
    (i = -1 → (step s (.keydown .arrowUp)).activeSuggestionIndex = -1) := by
  rw [activeSuggestionIndex_arrowUp, hi]
  refine ⟨?_, ?_, ?_⟩ <;> intro h <;> omega

theorem arrowUp_moves_without_wrapping_witness :
    (run init (renderedTrace ++ [.keydown .arrowDown])).activeSuggestionIndex = 0 ∧
    (step (run init (renderedTrace ++ [.keydown .arrowDown]))
      (.keydown .arrowUp)).activeSuggestionIndex = -1 := by
  have hi : (run init (renderedTrace ++ [.keydown .arrowDown])).activeSuggestionIndex = 0 := by
    decide
  have h := (arrowUp_moves_without_wrapping _ 0 hi).1 rfl
  exact ⟨hi, h⟩

/-- C14: in every reachable state of the booking modal, Enter with the active
index `-1` leaves the whole state unchanged, and Enter with the active index
`i ≥ 0` finds item `i` rendered and produces exactly the state that a click on
item `i` produces from the same state. -/
theorem enter_is_click_on_active_item (events : List Event) :
    ((run init events).activeSuggestionIndex = -1 →
      step (run init events) (.keydown .enter) = run init events) ∧
    (∀ i : Nat, (run init events).activeSuggestionIndex = i →
      (∃ item, (run init events).items[i]? = some item) ∧
      step (run init events) (.keydown .enter) =
        step (run init events) (.click (.item i))) := by
  have hs : Inv (run init events) := inv_run inv_init events
  generalize run init events = s at hs
  constructor
  · intro h
    simp [step, onKeydown, h]
  · intro i h
    have hlt : i < s.items.length := by
      rcases hs.active with h1 | ⟨-, h2⟩
      · omega
      · omega
    have hget : s.items[i]? = some (s.items[i]) := List.getElem?_eq_getElem hlt
    refine ⟨⟨_, hget⟩, ?_⟩
    simp [step, onKeydown, onClick, nodeAt, h, hget]

theorem enter_is_click_on_active_item_witness :
    (run init (renderedTrace ++ [.keydown .arrowDown])).activeSuggestionIndex = ((0 : Nat) : Int) ∧
    step (run init (renderedTrace ++ [.keydown .arrowDown])) (.keydown .enter) =
      step (run init (renderedTrace ++ [.keydown .arrowDown])) (.click (.item 0)) := by
  have hi : (run init (renderedTrace ++ [.keydown .arrowDown])).activeSuggestionIndex =
      ((0 : Nat) : Int) := by decide
  have h := ((enter_is_click_on_active_item (renderedTrace ++ [.keydown .arrowDown])).2 0 hi).2
  exact ⟨hi, h⟩

theorem active_of_pending {s : Widget} (hs : Inv s) {id : Nat} {r : Request}
    (h : s.requests[id]? = some r) (hp : r.pending = true) :
    s.activeSuggestionIndex = -1 ∧ s.panel = .placeholder .loading := by
  obtain ⟨-, -, hpanel, -⟩ := hs.pending id r h hp
  refine ⟨?_, hpanel⟩
  rcases hs.active with h1 | ⟨h1, h2⟩
  · exact h1
  · simp [items, hpanel, Panel.suggestionItems] at h2
    omega

theorem keydown_noop_of_placeholder (t : Widget) (p : Placeholder)
    (hp : t.panel = .placeholder p) (ha : t.activeSuggestionIndex = -1) (key : Key) :
    step t (.keydown key) = t := by
  cases t
  simp only at hp ha
  subst hp ha
  cases key <;> simp [step, onKeydown, updateActiveSuggestion, items, Panel.suggestionItems]

/-- C15: when the response of a pending request arrives with results in a
reachable state of the booking modal, whatever events came between the issue
of the request and the response, the results are rendered and the active index
is `-1` right after. -/
theorem active_index_reset_after_render (events : List Event) (id : Nat) (r : Request)
    (data : List Result)
    (h : (run init events).requests[id]? = some r) (hp : r.pending = true)
    (hd : 0 < data.length) :
    (step (run init events) (.response id (.ok data))).panel = .items (data.map renderItem) ∧
    (step (run init events) (.response id (.ok data))).activeSuggestionIndex = -1 := by
  have hs : Inv (run init events) := inv_run inv_init events
  generalize run init events = s at h hs
  have hact := (active_of_pending hs h hp).1
  have hpend : r.settled = false ∧ r.aborted = false := by
    simpa [Request.pending] using hp
  simp [step, onResponse, h, hpend.1, hpend.2, hd, renderAddressSuggestions, hact]

theorem active_index_reset_after_render_witness :
    (run init [.input queryLon, .timerFire, .keydown .arrowDown, .focus]).requests[0]? =
      some ⟨queryLon, false, false⟩ ∧
    (step (run init [.input queryLon, .timerFire, .keydown .arrowDown, .focus])
      (.response 0 (.ok [london, paarl]))).activeSuggestionIndex = -1 := by
  have h : (run init [.input queryLon, .timerFire, .keydown .arrowDown, .focus]).requests[0]? =
      some ⟨queryLon, false, false⟩ := by decide
  have h2 := (active_index_reset_after_render _ 0 _ [london, paarl] h (by decide)
    (by decide)).2
  exact ⟨h, h2⟩

/-- C16: when the response of a pending request arrives with zero results in a
reachable state of the booking modal, the panel shows the one row
`No locations found` and no suggestion item, the active index is `-1`, and in
that state ArrowDown, ArrowUp and Enter leave the whole state unchanged: the
active index stays `-1` and no form field changes. -/
theorem empty_response_shows_no_results (events : List Event) (id : Nat) (r : Request)
    (h : (run init events).requests[id]? = some r) (hp : r.pending = true) :
    (step (run init events) (.response id (.ok []))).panel = .placeholder .noResults ∧
    (step (run init events) (.response id (.ok []))).items = [] ∧
    (step (run init events) (.response id (.ok []))).activeSuggestionIndex = -1 ∧
    ∀ key : Key,
      step (step (run init events) (.response id (.ok []))) (.keydown key) =
        step (run init events) (.response id (.ok [])) := by
  have hs : Inv (run init events) := inv_run inv_init events
  generalize run init events = s at h hs
  have hact := (active_of_pending hs h hp).1
  have hpend : r.settled = false ∧ r.aborted = false := by
    simpa [Request.pending] using hp
  have hpanel : (step s (.response id (.ok []))).panel = .placeholder .noResults := by
    simp [step, onResponse, h, hpend.1, hpend.2]
  have hact1 : (step s (.response id (.ok []))).activeSuggestionIndex = -1 := by
    simp [step, onResponse, h, hpend.1, hpend.2, hact]
  refine ⟨hpanel, by simp [items, hpanel, Panel.suggestionItems], hact1, ?_⟩
  intro key
  exact keydown_noop_of_placeholder _ _ hpanel hact1 key

theorem empty_response_shows_no_results_witness :
    (run init [.input queryLon, .timerFire]).requests[0]? = some ⟨queryLon, false, false⟩ ∧
    (step (run init [.input queryLon, .timerFire]) (.response 0 (.ok []))).panel =
      .placeholder .noResults := by
  have h : (run init [.input queryLon, .timerFire]).requests[0]? =
      some ⟨queryLon, false, false⟩ := by decide
  have h2 := (empty_response_shows_no_results _ 0 _ h (by decide)).1
  exact ⟨h, h2⟩

/-- C17: for every state of the booking modal and every request whose handlers
have not run yet, a failed outcome (network error or non-2xx response) renders
the one row `Error loading suggestions`, with no suggestion item and every
form field unchanged, when the request was not aborted, and changes nothing
the user can see when it was aborted. -/
theorem failed_request_shows_error_row (s : Widget) (id : Nat) (r : Request)
    (h : s.requests[id]? = some r) (hset : r.settled = false) :
    (r.aborted = false →
      (step s (.response id .failed)).panel = .placeholder .error ∧
      (step s (.response id .failed)).items = [] ∧
      (step s (.response id .failed)).addressValue = s.addressValue ∧
      (step s (.response id .failed)).cityValue = s.cityValue ∧
      (step s (.response id .failed)).postalCodeValue = s.postalCodeValue ∧
      (step s (.response id .failed)).provinceValue = s.provinceValue ∧
      (step s (.response id .failed)).countryValue = s.countryValue ∧
      (step s (.response id .failed)).latitudeValue = s.latitudeValue ∧
      (step s (.response id .failed)).longitudeValue = s.longitudeValue) ∧
    (r.aborted = true → (step s (.response id .failed)).visible = s.visible) := by
  constructor
  · intro hab
    simp [step, onResponse, h, hset, hab, items, Panel.suggestionItems]
  · intro hab
    simp [step, onResponse, h, hset, hab, visible]

theorem failed_request_shows_error_row_witness :
    (run init [.input queryLon, .timerFire]).requests[0]? = some ⟨queryLon, false, false⟩ ∧
    (step (run init [.input queryLon, .timerFire]) (.response 0 .failed)).panel =
      .placeholder .error := by
  have h : (run init [.input queryLon, .timerFire]).requests[0]? =
      some ⟨queryLon, false, false⟩ := by decide
  have h2 := ((failed_request_shows_error_row _ 0 _ h rfl).1 rfl).1
  exact ⟨h, h2⟩

theorem addressValue_updateActiveSuggestion (s : Widget) :
    (updateActiveSuggestion s).addressValue = s.addressValue := by
  unfold updateActiveSuggestion
  split <;> rfl

theorem timer_step_no_input (t : Widget) (e : Event) (he : e.isInput = false) :
    (step t e).debounceTimer = t.debounceTimer ∨ (step t e).debounceTimer = none := by
  by_cases h : e.isInputOrTimer = false
  · exact Or.inl (step_frame t e h).1
  · cases e with
    | input value => cases he
    | timerFire => exact Or.inr (debounceTimer_onTimer t)
    | response id o => exact (h rfl).elim
    | keydown k => exact (h rfl).elim
    | mouseover k => exact (h rfl).elim
    | click c => exact (h rfl).elim
    | focus => exact (h rfl).elim

theorem addressValue_step (t : Widget) (e : Event) (he : e.isInput = false)
    (hc : e.mayCommit = false) : (step t e).addressValue = t.addressValue := by
  cases e with
  | input value => cases he
  | timerFire =>
    simp only [step, onTimer]
    split <;> rfl
  | response id o =>
    simp only [step, onResponse]
    split
    · rfl
    · split
      · rfl
      · split
        · rfl
        · split
          · split <;> rfl
          · rfl
  | keydown k =>
    cases k with
    | arrowDown => simp only [step, onKeydown, addressValue_updateActiveSuggestion]
    | arrowUp => simp only [step, onKeydown, addressValue_updateActiveSuggestion]
    | enter => cases hc
    | other => rfl
  | mouseover k =>
    simp only [step, onMouseover]
    split
    · rw [addressValue_updateActiveSuggestion]
    · rfl
  | click c =>
    cases c with
    | item k => cases hc
    | input => rfl
    | elsewhere => rfl
  | focus =>
    simp only [step, onFocus]
    split <;> rfl

theorem timer_run_no_input (t : Widget) (after : List Event)
    (h : ∀ e ∈ after, e.isInput = false) :
    ((run t after).debounceTimer = t.debounceTimer ∨ (run t after).debounceTimer = none) ∧
    ((∀ e ∈ after, e.mayCommit = false) → (run t after).addressValue = t.addressValue) := by
  induction after generalizing t with
  | nil => exact ⟨Or.inl rfl, fun _ => rfl⟩
  | cons e es ih =>
    have he : e.isInput = false := h e (by simp)
    obtain ⟨h1, h2⟩ := ih (step t e) (fun x hx => h x (by simp [hx]))
    constructor
    · rcases h1 with h1 | h1
      · rcases timer_step_no_input t e he with h3 | h3
        · exact Or.inl (h1.trans h3)
        · exact Or.inr (h1.trans h3)
      · exact Or.inr h1
    · intro hc
      have := h2 (fun x hx => hc x (by simp [hx]))
      exact this.trans (addressValue_step t e he (hc e (by simp)))

/-- C18, as stated, fails: when a suggestion is committed while the timer for
`Lond` is armed, the timer fires with the query `Lond`, which is not the
trimmed content of the address field (the committed display text). -/
theorem timer_query_not_current_field :
    (run init commitWhileArmedTrace).debounceTimer = some queryLond ∧
    (step (run init commitWhileArmedTrace) .timerFire).queries = [queryLon, queryLond] ∧
    trim (run init commitWhileArmedTrace).addressValue ≠ queryLond := by
  decide

/-- C18, amended: from every state, when the debounce timer fires after an
input event and any later events other than input events, the query sent is
the trimmed value of that input event; it is the trimmed content of the
address field if no suggestion was committed (no click on an item, no Enter)
since that input event. -/
theorem timer_sends_last_input_value (s : Widget) (value : JsString) (after : List Event)
    (query : JsString) (hafter : ∀ e ∈ after, e.isInput = false)
    (hq : (run (step s (.input value)) after).debounceTimer = some query) :
    query = trim value ∧
    (step (run (step s (.input value)) after) .timerFire).queries =
      (run (step s (.input value)) after).queries ++ [trim value] ∧
    ((∀ e ∈ after, e.mayCommit = false) →
      query = trim (run (step s (.input value)) after).addressValue) := by
  obtain ⟨h1, h2⟩ := timer_run_no_input (step s (.input value)) after hafter
  have hquery : query = trim value := by
    rcases h1 with h1 | h1
    · rw [h1] at hq
      simp only [step, debounceTimer_onInput] at hq
      split at hq
      · cases hq
      · exact (Option.some.inj hq).symm
    · rw [h1] at hq
      cases hq
  refine ⟨hquery, ?_, ?_⟩
  · simp only [step] at hq ⊢
    rw [queries_onTimer, hq, hquery]
    rfl
  · intro hc
    rw [h2 hc, hquery]
    simp [step, onInput]
    cases s.currentRequest <;> simp only [] <;> split <;> rfl

theorem timer_sends_last_input_value_witness :
    (run (step (run init renderedTrace) (.input queryLond)) [.focus]).debounceTimer =
      some queryLond ∧
    (step (run (step (run init renderedTrace) (.input queryLond)) [.focus]) .timerFire).queries =
      (run (step (run init renderedTrace) (.input queryLond)) [.focus]).queries ++
        [trim queryLond] := by
  have hq : (run (step (run init renderedTrace) (.input queryLond)) [.focus]).debounceTimer =
      some queryLond := by decide
  have h := (timer_sends_last_input_value (run init renderedTrace) queryLond [.focus]
    queryLond (by decide) hq).2.1
  exact ⟨hq, h⟩

theorem map_updateActiveSuggestion (s : Widget) :
    (updateActiveSuggestion s).map = s.map ∧
    (updateActiveSuggestion s).marker = s.marker ∧
    (updateActiveSuggestion s).mapsCreated = s.mapsCreated ∧
    (updateActiveSuggestion s).markersCreated = s.markersCreated := by
  unfold updateActiveSuggestion
  split <;> exact ⟨rfl, rfl, rfl, rfl⟩

theorem map_frame (s : Widget) (e : Event) (h : commitOf s e = none) :
    (step s e).map = s.map ∧ (step s e).marker = s.marker ∧
    (step s e).mapsCreated = s.mapsCreated ∧
    (step s e).markersCreated = s.markersCreated := by
  cases e with
  | input value =>
    simp only [step, onInput]
    cases hc : s.currentRequest <;> simp only [] <;> split <;> exact ⟨rfl, rfl, rfl, rfl⟩
  | timerFire =>
    simp only [step, onTimer]
    split <;> exact ⟨rfl, rfl, rfl, rfl⟩
  | response id o =>
    simp only [step, onResponse]
    split
    · exact ⟨rfl, rfl, rfl, rfl⟩
    · split
      · exact ⟨rfl, rfl, rfl, rfl⟩
      · split
        · exact ⟨rfl, rfl, rfl, rfl⟩
        · split
          · split <;> exact ⟨rfl, rfl, rfl, rfl⟩
          · exact ⟨rfl, rfl, rfl, rfl⟩
  | keydown k =>
    cases k with
    | arrowDown => exact map_updateActiveSuggestion _
    | arrowUp => exact map_updateActiveSuggestion _
    | enter =>
      simp only [commitOf] at h
      simp only [step, onKeydown]
      split
      · next hge =>
        rw [if_pos hge] at h
        rw [h]
        exact ⟨rfl, rfl, rfl, rfl⟩
      · exact ⟨rfl, rfl, rfl, rfl⟩
    | other => exact ⟨rfl, rfl, rfl, rfl⟩
  | mouseover k =>
    simp only [step, onMouseover]
    split
    · exact map_updateActiveSuggestion _
    · exact ⟨rfl, rfl, rfl, rfl⟩
  | click t =>
    cases t with
    | item k =>
      simp only [commitOf] at h
      simp [step, onClick, h]
    | input => exact ⟨rfl, rfl, rfl, rfl⟩
    | elsewhere => exact ⟨rfl, rfl, rfl, rfl⟩
  | focus =>
    simp only [step, onFocus]
    split <;> exact ⟨rfl, rfl, rfl, rfl⟩

theorem step_of_commit (s : Widget) (e : Event) (item : Item)
    (h : commitOf s e = some item) :
    ∃ t, step s e = onModalClick (itemClick s item) t := by
  cases e with
  | keydown k =>
    cases k with
    | enter =>
      simp only [commitOf] at h
      split at h
      · next hge =>
        exact ⟨.item s.activeSuggestionIndex.toNat,
          by simp only [step, onKeydown, if_pos hge, h]⟩
      · cases h
    | arrowDown => cases h
    | arrowUp => cases h
    | other => cases h
  | click t =>
    cases t with
    | item k =>
      simp only [commitOf] at h
      exact ⟨.item k, by simp only [step, onClick, h]⟩
    | input => cases h
    | elsewhere => cases h
  | input value => cases h
  | timerFire => cases h
  | response id o => cases h
  | mouseover k => cases h
  | focus => cases h

theorem map_commit (s : Widget) (item : Item) (t : ClickTarget) :
    (onModalClick (itemClick s item) t).map = some ⟨⟨item.lat, item.lon⟩, 15⟩ ∧
    (onModalClick (itemClick s item) t).marker =
      (match s.map with
        | none => some ⟨item.lat, item.lon⟩
        | some _ => s.marker.map (fun _ => ⟨item.lat, item.lon⟩)) ∧
    (onModalClick (itemClick s item) t).mapsCreated =
      s.mapsCreated + (if s.map = none then 1 else 0) ∧
    (onModalClick (itemClick s item) t).markersCreated =
      s.markersCreated + (if s.map = none then 1 else 0) := by
  cases t <;> cases hm : s.map <;> simp [onModalClick, itemClick, updateMapPreview, hm]

theorem mapAfter_step (s : Widget) (done : List Item) (e : Event) (h : MapAfter s done) :
    MapAfter (step s e) (done ++ (commitOf s e).toList) := by
  cases hc : commitOf s e with
  | none =>
    obtain ⟨h1, h2, h3, h4⟩ := map_frame s e hc
    simp only [Option.toList, List.append_nil]
    unfold MapAfter at h ⊢
    rw [h1, h2, h3, h4]
    exact h
  | some item =>
    obtain ⟨t, ht⟩ := step_of_commit s e item hc
    obtain ⟨h1, h2, h3, h4⟩ := map_commit s item t
    simp only [Option.toList]
    unfold MapAfter at h ⊢
    rw [List.getLast?_concat, ht]
    simp only []
    cases hd : done.getLast? with
    | none =>
      rw [hd] at h
      obtain ⟨a, b, c, d⟩ := h
      rw [h1, h2, h3, h4]
      simp [a, c, d]
    | some prev =>
      rw [hd] at h
      obtain ⟨a, b, c, d⟩ := h
      rw [h1, h2, h3, h4]
      simp [a, b, c, d]

theorem mapAfter_run (s : Widget) (done : List Item) (events : List Event)
    (h : MapAfter s done) : MapAfter (run s events) (done ++ commitsOf s events) := by
  induction events generalizing s done with
  | nil => simpa [commitsOf, run] using h
  | cons e es ih =>
    have := ih (step s e) (done ++ (commitOf s e).toList) (mapAfter_step s done e h)
    simpa [commitsOf, run, List.append_assoc] using this

/-- C19: over every sequence of events of the booking modal, with the commits
made along it: before the first commit there is no map and no marker; after a
non-empty sequence of commits exactly one map and exactly one marker have been
created, and map centre and marker are at the coordinates of the last commit,
with zoom 15. -/
theorem map_and_marker_created_once (events : List Event) :
    (commitsOf init events = [] →
      (run init events).map = none ∧ (run init events).marker = none ∧
      (run init events).mapsCreated = 0 ∧ (run init events).markersCreated = 0) ∧
    (∀ last : Item, (commitsOf init events).getLast? = some last →
      (run init events).mapsCreated = 1 ∧ (run init events).markersCreated = 1 ∧
      (run init events).map = some ⟨⟨last.lat, last.lon⟩, 15⟩ ∧
      (run init events).marker = some ⟨last.lat, last.lon⟩) := by
  have h := mapAfter_run init [] events (by simp [MapAfter, init])
  simp only [List.nil_append] at h
  unfold MapAfter at h
  constructor
  · intro hnil
    rw [hnil] at h
    exact h
  · intro last hlast
    rw [hlast] at h
    exact ⟨h.2.2.1, h.2.2.2, h.1, h.2.1⟩

theorem map_and_marker_created_once_witness :
    (commitsOf init (renderedTrace ++ [.click (.item 0), .focus, .keydown .arrowDown,
      .keydown .arrowDown, .keydown .enter])).getLast? =
      some { renderItem paarl with active := true } ∧
    (run init (renderedTrace ++ [.click (.item 0), .focus, .keydown .arrowDown,
      .keydown .arrowDown, .keydown .enter])).mapsCreated = 1 ∧
    (run init (renderedTrace ++ [.click (.item 0), .focus, .keydown .arrowDown,
      .keydown .arrowDown, .keydown .enter])).marker = some ⟨paarl.lat, paarl.lon⟩ := by
  have hl : (commitsOf init (renderedTrace ++ [.click (.item 0), .focus, .keydown .arrowDown,
      .keydown .arrowDown, .keydown .enter])).getLast? =
      some { renderItem paarl with active := true } := by
    decide
  have h := (map_and_marker_created_once (renderedTrace ++ [.click (.item 0), .focus,
    .keydown .arrowDown, .keydown .arrowDown, .keydown .enter])).2 _ hl
  exact ⟨hl, h.1, h.2.2.2⟩

theorem items_commit (s : Widget) (item : Item) (t : ClickTarget) :
    (onModalClick (itemClick s item) t).items = s.items := by
  cases t <;> cases hm : s.map <;>
    simp [onModalClick, itemClick, updateMapPreview, items, hm]

theorem commit_idempotent (s : Widget) (item : Item) (t : ClickTarget) :
    onModalClick (itemClick (onModalClick (itemClick s item) t) item) t =
      onModalClick (itemClick s item) t := by
  cases t <;> cases hm : s.map <;> cases hk : s.marker <;>
    simp [onModalClick, itemClick, updateMapPreview, hm, hk]

/-- C20: a click on a rendered item, followed by a second click on the same
item, yields exactly the state that the first click yields: form fields, panel
visibility, map centre and zoom, marker position and the numbers of maps and
markers created are the same. -/
theorem commit_twice_is_commit_once (s : Widget) (k : Nat) (item : Item)
    (h : s.items[k]? = some item) :
    step (step s (.click (.item k))) (.click (.item k)) = step s (.click (.item k)) := by
  have h1 : step s (.click (.item k)) = onModalClick (itemClick s item) (.item k) := by
    simp only [step, onClick, h]
  have h2 : (onModalClick (itemClick s item) (.item k)).items[k]? = some item := by
    rw [items_commit]
    exact h
  rw [h1]
  simp only [step, onClick, h2]
  exact commit_idempotent s item (.item k)

theorem commit_twice_is_commit_once_witness :
    (run init renderedTrace).items[1]? = some (renderItem paarl) ∧
    step (step (run init renderedTrace) (.click (.item 1))) (.click (.item 1)) =
      step (run init renderedTrace) (.click (.item 1)) := by
  have h : (run init renderedTrace).items[1]? = some (renderItem paarl) := by decide
  have h2 := commit_twice_is_commit_once (run init renderedTrace) 1 (renderItem paarl) h
  exact ⟨h, h2⟩

end Widget

namespace Signup

/-- C3 fails on the code: on the signup page the input event for `Long` leaves
the request for `Lon` un-aborted (the listener tests its own block variable
`currentRequest`, which is never assigned), and the response to `Lon` is then
rendered into the panel. -/
theorem input_does_not_abort_request :
    (run init signupStaleTrace).requests = [⟨queryLon, false, false⟩] ∧
    (run init signupStaleTrace).currentRequest = none ∧
    (run init signupStaleTrace).globalCurrentRequest = some (some 0) ∧
    (step (run init signupStaleTrace) (.response 0 (.ok [london]))).panel =
      .items [renderItem london] := by
  decide

/-- C8 fails on the code: on the signup page, after the list has been rebuilt
with one item, the index the keydown listener uses is still `1`
(`fetchLocationSuggestions` resets the global variable, not the listener's),
`items[1]` is missing and Enter ends in an uncaught `TypeError`. -/
theorem enter_clicks_missing_item :
    (run init signupShrinkTrace).activeSuggestionIndex = 1 ∧
    (run init signupShrinkTrace).globalActiveSuggestionIndex = some (-1) ∧
    (run init signupShrinkTrace).items.length = 1 ∧
    nodeAt (run init signupShrinkTrace).items
      (run init signupShrinkTrace).activeSuggestionIndex = none ∧
    (step (run init signupShrinkTrace) (.keydown .enter)).uncaught = 1 := by
  decide

end Signup

namespace Widget

theorem latlng_updateActiveSuggestion (s : Widget) :
    (updateActiveSuggestion s).latitudeValue = s.latitudeValue ∧
    (updateActiveSuggestion s).longitudeValue = s.longitudeValue := by
  unfold updateActiveSuggestion
  split <;> exact ⟨rfl, rfl⟩

theorem latlng_frame (s : Widget) (e : Event) (h : commitOf s e = none) :
    (step s e).latitudeValue = s.latitudeValue ∧
    (step s e).longitudeValue = s.longitudeValue := by
  cases e with
  | input value =>
    simp only [step, onInput]
    cases hc : s.currentRequest <;> simp only [] <;> split <;> exact ⟨rfl, rfl⟩
  | timerFire =>
    simp only [step, onTimer]
    split <;> exact ⟨rfl, rfl⟩
  | response id o =>
    simp only [step, onResponse]
    split
    · exact ⟨rfl, rfl⟩
    · split
      · exact ⟨rfl, rfl⟩
      · split
        · exact ⟨rfl, rfl⟩
        · split
          · split <;> exact ⟨rfl, rfl⟩
          · exact ⟨rfl, rfl⟩
  | keydown k =>
    cases k with
    | arrowDown => exact latlng_updateActiveSuggestion _
    | arrowUp => exact latlng_updateActiveSuggestion _
    | enter =>
      simp only [commitOf] at h
      simp only [step, onKeydown]
      split
      · next hge =>
        rw [if_pos hge] at h
        rw [h]
        exact ⟨rfl, rfl⟩
      · exact ⟨rfl, rfl⟩
    | other => exact ⟨rfl, rfl⟩
  | mouseover k =>
    simp only [step, onMouseover]
    split
    · exact latlng_updateActiveSuggestion _
    · exact ⟨rfl, rfl⟩
  | click t =>
    cases t with
    | item k =>
      simp only [commitOf] at h
      simp [step, onClick, h]
    | input => exact ⟨rfl, rfl⟩
    | elsewhere => exact ⟨rfl, rfl⟩
  | focus =>
    simp only [step, onFocus]
    split <;> exact ⟨rfl, rfl⟩

/-- C21, as stated, fails: after `london` is committed, an input event that
leaves the address field empty keeps the stored latitude and longitude. -/
theorem cleared_field_keeps_coordinates :
    (run init clearedAfterCommitTrace).addressValue = [] ∧
    (run init clearedAfterCommitTrace).latitudeValue = london.lat ∧
    (run init clearedAfterCommitTrace).longitudeValue = london.lon ∧
    (run init clearedAfterCommitTrace).latitudeValue ≠ [] := by
  decide

/-- C21, amended: the selected location persists until a new selection is
made: every event that commits no suggestion, an input event that empties the
address field included, leaves latitude and longitude unchanged, and an event
that commits an item sets them to the latitude and longitude of that item. -/
theorem coordinates_change_only_on_commit (s : Widget) (e : Event) :
    (commitOf s e = none →
      (step s e).latitudeValue = s.latitudeValue ∧
      (step s e).longitudeValue = s.longitudeValue) ∧
    (∀ item, commitOf s e = some item →
      (step s e).latitudeValue = item.lat ∧ (step s e).longitudeValue = item.lon) := by
  refine ⟨latlng_frame s e, ?_⟩
  intro item h
  obtain ⟨t, ht⟩ := step_of_commit s e item h
  rw [ht]
  cases t <;> cases hm : s.map <;> simp [onModalClick, itemClick, updateMapPreview, hm]

theorem coordinates_change_only_on_commit_witness :
    commitOf (run init (renderedTrace ++ [.click (.item 0)])) (.input []) = none ∧
    (step (run init (renderedTrace ++ [.click (.item 0)])) (.input [])).latitudeValue =
      (run init (renderedTrace ++ [.click (.item 0)])).latitudeValue := by
  have h : commitOf (run init (renderedTrace ++ [.click (.item 0)])) (.input []) = none := rfl
  have h2 := ((coordinates_change_only_on_commit
    (run init (renderedTrace ++ [.click (.item 0)])) (.input [])).1 h).1
  exact ⟨h, h2⟩

theorem getElem?_toggleActive (a : Int) (l : List Item) (i k : Nat) (item : Item)
    (h : (toggleActive a i l)[k]? = some item) :
    (item.active = true ↔ ((i + k : Nat) : Int) = a) := by
  induction l generalizing i k with
  | nil => simp [toggleActive] at h
  | cons x xs ih =>
    cases k with
    | zero =>
      simp only [toggleActive, List.getElem?_cons_zero, Option.some.injEq] at h
      subst h
      simp
    | succ k =>
      simp only [toggleActive, List.getElem?_cons_succ] at h
      have := ih (i + 1) k h
      rw [this]
      have : i + 1 + k = i + (k + 1) := by omega
      rw [this]

theorem highlighted_setActive (s : Widget) (a : Int) :
    Highlighted (updateActiveSuggestion { s with activeSuggestionIndex := a }) := by
  intro k item h
  cases hp : s.panel with
  | placeholder p =>
    simp [updateActiveSuggestion, items, hp, Panel.suggestionItems] at h
  | items l =>
    simp only [updateActiveSuggestion, items, hp, Panel.suggestionItems] at h ⊢
    have := getElem?_toggleActive a l 0 k item h
    simpa using this

theorem highlighted_of_frame {s t : Widget} (hs : Highlighted s) (hp : t.panel = s.panel)
    (ha : t.activeSuggestionIndex = s.activeSuggestionIndex) : Highlighted t := by
  intro k item h
  rw [ha]
  apply hs k item
  simpa [items, hp] using h

theorem highlighted_of_no_items {t : Widget} (h : t.items = []) : Highlighted t := by
  intro k item hk
  simp [h] at hk

theorem highlighted_commit {s : Widget} (hs : Highlighted s) (item : Item) (t : ClickTarget) :
    Highlighted (onModalClick (itemClick s item) t) := by
  apply highlighted_of_frame hs <;>
    cases t <;> cases hm : s.map <;> simp [onModalClick, itemClick, updateMapPreview, hm]

theorem highlighted_step {s : Widget} (hi : Inv s) (hs : Highlighted s) (e : Event) :
    Highlighted (step s e) := by
  cases e with
  | input value =>
    apply highlighted_of_frame hs <;> simp only [step, onInput] <;>
      cases hc : s.currentRequest <;> simp only [] <;> split <;> rfl
  | timerFire =>
    simp only [step, onTimer]
    split
    · exact highlighted_of_no_items rfl
    · exact hs
  | response id o =>
    simp only [step, onResponse]
    split
    · exact hs
    · next r h0 =>
      split
      · exact hs
      · next hset =>
        split
        · exact highlighted_of_frame hs rfl rfl
        · next hab =>
          have hp0 : r.pending = true := by simp [Request.pending, hset, hab]
          have hact : s.activeSuggestionIndex = -1 := by
            obtain ⟨-, -, hpanel, -⟩ := hi.pending id r h0 hp0
            rcases hi.active with h | ⟨h1, h2⟩
            · exact h
            · simp [items, hpanel, Panel.suggestionItems] at h2
              omega
          split
          · split
            · intro k item hk
              simp only [renderAddressSuggestions, items, Panel.suggestionItems,
                List.getElem?_map, Option.map_eq_some'] at hk
              obtain ⟨result, -, hitem⟩ := hk
              subst hitem
              simp only [renderAddressSuggestions, hact, renderItem]
              constructor
              · intro hfalse
                cases hfalse
              · intro hk
                omega
            · exact highlighted_of_no_items rfl
          · exact highlighted_of_no_items rfl
  | keydown k =>
    cases k with
    | arrowDown => exact highlighted_setActive s _
    | arrowUp => exact highlighted_setActive s _
    | enter =>
      simp only [step, onKeydown]
      split
      · split
        · exact highlighted_commit hs _ _
        · exact highlighted_of_frame hs rfl rfl
      · exact hs
    | other => exact hs
  | mouseover k =>
    simp only [step, onMouseover]
    split
    · exact highlighted_setActive s _
    · exact hs
  | click t =>
    cases t with
    | item k =>
      simp only [step, onClick]
      split
      · exact highlighted_commit hs _ _
      · exact hs
    | input => exact hs
    | elsewhere => exact highlighted_of_frame hs rfl rfl
  | focus =>
    simp only [step, onFocus]
    split
    · exact highlighted_of_frame hs rfl rfl
    · exact hs

theorem highlighted_run (events : List Event) : Highlighted (run init events) := by
  have key : ∀ (s : Widget), Inv s → Highlighted s → Highlighted (run s events) := by
    induction events with
    | nil => exact fun _ _ hs => hs
    | cons e es ih =>
      intro s hi hs
      exact ih (step s e) (inv_step hi e) (highlighted_step hi hs e)
  exact key init inv_init (highlighted_of_no_items rfl)

/-- C22: hovering a rendered item `k` sets the active index to `k`, and in
every reachable state of the booking modal a rendered item is highlighted
exactly when its position is the active index: at most one item is
highlighted, none when the index is `-1`, whether the index was last moved by
a key or by the mouse. -/
theorem one_highlight_cursor :
    (∀ (s : Widget) (k : Nat), k < s.items.length →
      (step s (.mouseover k)).activeSuggestionIndex = k) ∧
    (∀ (events : List Event) (k : Nat) (item : Item),
      (run init events).items[k]? = some item →
      (item.active = true ↔ (k : Int) = (run init events).activeSuggestionIndex)) := by
  constructor
  · intro s k hk
    simp only [step, onMouseover, if_pos hk, (updateActiveSuggestion_frame _).2.2.2.1]
  · intro events k item h
    exact highlighted_run events k item h

theorem one_highlight_cursor_witness :
    (run init (renderedTrace ++ [.mouseover 1])).items[1]? =
      some { renderItem paarl with active := true } ∧
    ((1 : Nat) : Int) = (run init (renderedTrace ++ [.mouseover 1])).activeSuggestionIndex := by
  have h : (run init (renderedTrace ++ [.mouseover 1])).items[1]? =
      some { renderItem paarl with active := true } := by decide
  have ha : ({ renderItem paarl with active := true } : Item).active = true := rfl
  have h2 := one_highlight_cursor.2 _ _ _ h
  exact ⟨h, h2.mp ha⟩

/-- C25, as stated, fails: with two items rendered and the value `Lo` in the
address field, a focus event leaves the panel hidden. -/
theorem focus_with_short_value_keeps_panel_hidden :
    (run init shortValueTrace).items.length = 2 ∧
    (run init shortValueTrace).panelVisible = false ∧
    (step (run init shortValueTrace) .focus).panelVisible = false := by
  decide

/-- C25, amended: for every state in which a non-empty suggestion list is
rendered and the address field holds at least 3 code units after trimming, a
focus event makes the panel visible; a focus event never changes the panel
content, the active index or any form field. -/
theorem focus_reopens_panel (s : Widget) :
    (s.items ≠ [] → 3 ≤ (trim s.addressValue).length →
      (step s .focus).panelVisible = true) ∧
    (step s .focus).panel = s.panel ∧
    (step s .focus).activeSuggestionIndex = s.activeSuggestionIndex ∧
    (step s .focus).addressValue = s.addressValue ∧
    (step s .focus).cityValue = s.cityValue ∧
    (step s .focus).postalCodeValue = s.postalCodeValue ∧
    (step s .focus).provinceValue = s.provinceValue ∧
    (step s .focus).countryValue = s.countryValue ∧
    (step s .focus).latitudeValue = s.latitudeValue ∧
    (step s .focus).longitudeValue = s.longitudeValue := by
  refine ⟨?_, ?_⟩
  · intro hitems hlen
    have hc : s.panel.hasContent = true := by
      cases hp : s.panel with
      | placeholder p => rfl
      | items l =>
        cases l with
        | nil => simp [items, hp, Panel.suggestionItems] at hitems
        | cons x xs => rfl
    simp [step, onFocus, hlen, hc]
  · simp only [step, onFocus]
    split <;> exact ⟨rfl, rfl, rfl, rfl, rfl, rfl, rfl, rfl, rfl⟩

theorem focus_reopens_panel_witness :
    (run init (renderedTrace ++ [.click .elsewhere])).items ≠ [] ∧
    (run init (renderedTrace ++ [.click .elsewhere])).panelVisible = false ∧
    (step (run init (renderedTrace ++ [.click .elsewhere])) .focus).panelVisible = true := by
  have h1 : (run init (renderedTrace ++ [.click .elsewhere])).items ≠ [] := by decide
  have h2 := (focus_reopens_panel (run init (renderedTrace ++ [.click .elsewhere]))).1 h1
    (by decide)
  exact ⟨h1, by decide, h2⟩

end Widget

/-- C24: a click outside both the text input and the suggestion list only
hides the suggestion panel, in the booking modal and on the signup page: it
commits nothing, and the form fields, the rendered list and the active index
are unchanged. -/
theorem click_elsewhere_only_hides (s : Widget) (t : Signup) :
    s.step (.click .elsewhere) = { s with panelVisible := false } ∧
    s.commitOf (.click .elsewhere) = none ∧
    t.step (.click .elsewhere) = { t with panelVisible := false } :=
  ⟨rfl, rfl, rfl⟩

namespace Signup

/-- C23 fails on the code: on the signup page, after ArrowDown on a freshly
rendered list no item is highlighted while Enter commits the first item; and
after hovering the second item that item is highlighted while Enter commits
nothing (the keydown listener and the highlight use different variables). -/
theorem highlight_is_not_enter_target :
    (run init (renderedTrace ++ [.keydown .arrowDown])).items.map SignupItem.active =
      [false, false] ∧
    (step (run init (renderedTrace ++ [.keydown .arrowDown])) (.keydown .enter)).locationValue =
      displayText london ∧
    (run init (renderedTrace ++ [.mouseover 1])).items.map SignupItem.active =
      [false, true] ∧
    step (run init (renderedTrace ++ [.mouseover 1])) (.keydown .enter) =
      run init (renderedTrace ++ [.mouseover 1]) := by
  decide

end Signup

theorem JsValue.strictEq_str (v : JsValue) (s : JsString) :
    v.strictEq (.str s) = true ↔ v = .str s := by
  cases v <;> simp [JsValue.strictEq]

theorem mapBooking_booking (reviews : List Review) (b : Booking) :
    (mapBooking reviews b).booking = b := by
  unfold mapBooking
  split
  · split <;> rfl
  · rfl

theorem mapBooking_of_not_completed (reviews : List Review) (b : Booking)
    (h : ¬ b.status = completedStatus) :
    mapBooking reviews b = ⟨b, false, .null, .null, .null⟩ := by
  have : b.status.strictEq completedStatus = false := by
    rw [Bool.eq_false_iff]
    intro hc
    exact h ((JsValue.strictEq_str _ _).mp hc)
  simp [mapBooking, this]

theorem mapBooking_has_review (reviews : List Review) (b : Booking) :
    (mapBooking reviews b).has_review = true ↔
      b.status = completedStatus ∧
      ∃ r ∈ reviews, r.booking_id.strictEq b.booking_id = true := by
  by_cases hc : b.status = completedStatus
  · have hs : b.status.strictEq completedStatus = true := (JsValue.strictEq_str _ _).mpr hc
    cases hf : reviews.find? fun r => r.booking_id.strictEq b.booking_id with
    | none =>
      simp only [mapBooking, hs, if_true, hf]
      rw [List.find?_eq_none] at hf
      constructor
      · intro h
        cases h
      · rintro ⟨-, r, hr, hp⟩
        exact (hf r hr hp).elim
    | some r =>
      simp only [mapBooking, hs, if_true, hf]
      have := List.find?_some hf
      have hmem := List.mem_of_find?_eq_some hf
      exact ⟨fun _ => ⟨hc, r, hmem, this⟩, fun _ => trivial⟩
  · rw [mapBooking_of_not_completed reviews b hc]
    constructor
    · intro h
      cases h
    · rintro ⟨h, -⟩
      exact (hc h).elim

theorem mapBooking_without_review (reviews : List Review) (b : Booking)
    (h : (mapBooking reviews b).has_review = false) :
    (mapBooking reviews b).review_id = .null ∧
    (mapBooking reviews b).review_rating = .null ∧
    (mapBooking reviews b).review_comment = .null := by
  unfold mapBooking at h ⊢
  split
  · split
    · next hf =>
      simp [*] at h
    · exact ⟨rfl, rfl, rfl⟩
  · exact ⟨rfl, rfl, rfl⟩

theorem mapBooking_first_review (b : Booking) (before : List Review) (r : Review)
    (after : List Review) (hc : b.status = completedStatus)
    (hb : ∀ x ∈ before, x.booking_id.strictEq b.booking_id = false)
    (hr : r.booking_id.strictEq b.booking_id = true) :
    mapBooking (before ++ r :: after) b =
      ⟨b, true, r.review_id.orNull, r.rating.orNull, r.comment.orNull⟩ := by
  have hs : b.status.strictEq completedStatus = true := (JsValue.strictEq_str _ _).mpr hc
  have hf : (before ++ r :: after).find? (fun r => r.booking_id.strictEq b.booking_id) =
      some r := by
    rw [List.find?_eq_some]
    exact ⟨hr, before, after, rfl, fun a ha => by simp [hb a ha]⟩
  simp only [mapBooking, hs, if_true, hf]

theorem loadBookings_eq_map (bookings : List Booking) (reviews : List Review) :
    loadBookings bookings (some reviews) = bookings.map (mapBooking reviews) := by
  unfold loadBookings
  by_cases h : (completedBookingIds bookings).length > 0
  · simp [h]
  · simp only [h, if_false]
    apply List.map_congr_left
    intro b hb
    have hnc : ¬ b.status = completedStatus := by
      intro hc
      apply h
      have : b.booking_id ∈ completedBookingIds bookings := by
        simp only [completedBookingIds, List.mem_map, List.mem_filter]
        exact ⟨b, ⟨hb, (JsValue.strictEq_str _ _).mpr hc⟩, rfl⟩
      exact List.length_pos_of_mem this
    rw [mapBooking_of_not_completed _ b hnc, mapBooking_of_not_completed _ b hnc]

/-- C26, as stated, fails: for a completed booking whose first review has an
empty comment, the mapped `review_comment` is `null`, not the comment of that
review. -/
theorem empty_comment_becomes_null :
    (loadBookings [doneBooking] (some [blankReview, laterReview])).map
      MappedBooking.has_review = [true] ∧
    (loadBookings [doneBooking] (some [blankReview, laterReview])).map
      MappedBooking.review_comment = [.null] ∧
    blankReview.comment ≠ .null := by
  decide

/-- C26, amended: the list mapped by `loadBookings` has the length and order of
the bookings, each mapped booking keeps the original booking, `has_review` is
true exactly when the status is `completed` and some review has the same
`booking_id`; then `review_id`, `review_rating` and `review_comment` are the
values of the first such review, each replaced by `null` when it is falsy, and
all three are `null` for a booking without a review. -/
theorem loadBookings_maps_reviews (bookings : List Booking) (reviews : List Review) :
    (loadBookings bookings (some reviews)).length = bookings.length ∧
    ∀ (k : Nat) (b : Booking), bookings[k]? = some b →
      ∃ m, (loadBookings bookings (some reviews))[k]? = some m ∧ m.booking = b ∧
        (m.has_review = true ↔
          b.status = completedStatus ∧
          ∃ r ∈ reviews, r.booking_id.strictEq b.booking_id = true) ∧
        (m.has_review = false →
          m.review_id = .null ∧ m.review_rating = .null ∧ m.review_comment = .null) ∧
        (∀ (before : List Review) (r : Review) (after : List Review),
          reviews = before ++ r :: after →
          (∀ x ∈ before, x.booking_id.strictEq b.booking_id = false) →
          r.booking_id.strictEq b.booking_id = true → b.status = completedStatus →
          m.review_id = (if r.review_id.truthy then r.review_id else .null) ∧
          m.review_rating = (if r.rating.truthy then r.rating else .null) ∧
          m.review_comment = (if r.comment.truthy then r.comment else .null)) := by
  rw [loadBookings_eq_map]
  refine ⟨by simp, ?_⟩
  intro k b hk
  refine ⟨mapBooking reviews b, by simp [hk], mapBooking_booking reviews b,
    mapBooking_has_review reviews b, mapBooking_without_review reviews b, ?_⟩
  intro before r after hrev hb hr hc
  rw [hrev, mapBooking_first_review b before r after hc hb hr]
  exact ⟨rfl, rfl, rfl⟩

theorem loadBookings_maps_reviews_witness :
    [doneBooking][0]? = some doneBooking ∧
    ∃ m, (loadBookings [doneBooking] (some [blankReview, laterReview]))[0]? = some m ∧
      m.review_id = blankReview.review_id ∧ m.review_comment = .null := by
  have hk : [doneBooking][0]? = some doneBooking := rfl
  obtain ⟨m, hm, -, -, -, h⟩ :=
    (loadBookings_maps_reviews [doneBooking] [blankReview, laterReview]).2 0 doneBooking hk
  have h2 := h [] blankReview [laterReview] rfl (by simp) (by decide) rfl
  exact ⟨hk, m, hm, h2.1.trans (by decide), h2.2.2.trans (by decide)⟩

theorem onsubmit_sent (hasSchedule : Bool) (schedules : List Schedule)
    (validDate : JsValue → Bool) (form : BookingForm) (body : BookingPost)
    (h : onsubmit hasSchedule schedules validDate form = .sent body) :
    (trim form.serviceType ≠ [] ∧ trim form.description ≠ [] ∧ trim form.address ≠ [] ∧
      trim form.city ≠ [] ∧ trim form.postalCode ≠ [] ∧ trim form.province ≠ [] ∧
      trim form.country ≠ [] ∧ form.latitude ≠ [] ∧ form.longitude ≠ []) ∧
    determineTimes hasSchedule schedules form = .ok (body.start_date, body.end_date) := by
  simp only [onsubmit] at h
  split at h
  · cases h
  · next h1 =>
    split at h
    · cases h
    · next h2 =>
      simp only [Bool.or_eq_true, List.isEmpty_iff, not_or] at h1 h2
      split at h
      · next r hr =>
        subst h
        refine ⟨?_, ?_⟩
        · obtain ⟨⟨⟨⟨⟨⟨a, b⟩, c⟩, d⟩, e⟩, f⟩, g⟩ := h1
          exact ⟨a, b, c, d, e, f, g, h2.1, h2.2⟩
        · exfalso
          revert hr
          simp only [determineTimes]
          intro hr
          split at hr <;> (try split at hr) <;> (try split at hr) <;> (try split at hr) <;>
            simp_all
      · next startDate endDate hd =>
        split at h
        · cases h
          obtain ⟨⟨⟨⟨⟨⟨a, b⟩, c⟩, d⟩, e⟩, f⟩, g⟩ := h1
          exact ⟨⟨a, b, c, d, e, f, g, h2.1, h2.2⟩, hd⟩
        · cases h

/-- C27: submitting the booking form sends no request when service type,
description, address, city, postal code, province or country is empty after
trimming, or latitude or longitude is empty; when a request is sent, all nine
are non-empty and the handler determined the start and end time that the body
carries. -/
theorem submit_sends_only_complete_form (hasSchedule : Bool) (schedules : List Schedule)
    (validDate : JsValue → Bool) (form : BookingForm) :
    ((trim form.serviceType = [] ∨ trim form.description = [] ∨ trim form.address = [] ∨
        trim form.city = [] ∨ trim form.postalCode = [] ∨ trim form.province = [] ∨
        trim form.country = [] ∨ form.latitude = [] ∨ form.longitude = []) →
      ∀ body, onsubmit hasSchedule schedules validDate form ≠ .sent body) ∧
    (∀ body, onsubmit hasSchedule schedules validDate form = .sent body →
      (trim form.serviceType ≠ [] ∧ trim form.description ≠ [] ∧ trim form.address ≠ [] ∧
        trim form.city ≠ [] ∧ trim form.postalCode ≠ [] ∧ trim form.province ≠ [] ∧
        trim form.country ≠ [] ∧ form.latitude ≠ [] ∧ form.longitude ≠ []) ∧
      determineTimes hasSchedule schedules form = .ok (body.start_date, body.end_date)) := by
  refine ⟨?_, fun body h => onsubmit_sent hasSchedule schedules validDate form body h⟩
  intro hempty body h
  obtain ⟨⟨a, b, c, d, e, f, g, x, y⟩, -⟩ :=
    onsubmit_sent hasSchedule schedules validDate form body h
  rcases hempty with h | h | h | h | h | h | h | h | h
  · exact a h
  · exact b h
  · exact c h
  · exact d h
  · exact e h
  · exact f h
  · exact g h
  · exact x h
  · exact y h

theorem submit_sends_only_complete_form_witness :
    (∀ body, onsubmit false [] (fun _ => true) { filledForm with latitude := [] } ≠
      .sent body) ∧
    onsubmit false [] (fun _ => true) filledForm = .sent filledBody ∧
    determineTimes false [] filledForm = .ok (filledBody.start_date, filledBody.end_date) := by
  have h1 := (submit_sends_only_complete_form false [] (fun _ => true)
    { filledForm with latitude := [] }).1 (by decide)
  have h2 : onsubmit false [] (fun _ => true) filledForm = .sent filledBody := by decide
  have h3 := ((submit_sends_only_complete_form false [] (fun _ => true) filledForm).2
    filledBody h2).2
  exact ⟨h1, h2, h3⟩

theorem Num.den_pos_cast (q : Num) : (0 : ℚ) < ((q.den : ℕ) : ℚ) := by
  exact_mod_cast q.den.pos

theorem Num.value_le_iff (a b : Num) :
    a.value ≤ b.value ↔ a.num * ((b.den : ℕ) : Int) ≤ b.num * ((a.den : ℕ) : Int) := by
  unfold Num.value
  rw [div_le_div_iff₀ a.den_pos_cast b.den_pos_cast]
  exact_mod_cast Iff.rfl

theorem ratingOrZero_value (tech : Favorite) : tech.ratingOrZero.value = ratingValue tech := by
  unfold Favorite.ratingOrZero ratingValue
  cases tech.rating with
  | none => simp [Num.value, Num.ofInt]
  | some q =>
    by_cases h : q.num = 0
    · simp [h, Num.value, Num.ofInt]
    · simp [h]

theorem compareRating_nonpos (a b : Favorite) :
    (compareRating a b).num ≤ 0 ↔ ratingValue b ≤ ratingValue a := by
  rw [← ratingOrZero_value, ← ratingOrZero_value, Num.value_le_iff]
  simp only [compareRating, Num.sub]
  omega

/-- C28: on a non-empty favourites list `sortFavorites('rating')` displays a
permutation of `favoritesData` in which the ratings do not increase, a missing
rating counting as 0, and leaves `favoritesData` as it was;
`sortFavorites('recent')` displays `favoritesData` in its own order. -/
theorem sortFavorites_orders_by_rating (nameOrder : Favorite → Favorite → Bool)
    (page : FavoritesPage) (h : page.favoritesData ≠ []) :
    (sortFavorites nameOrder page .rating).displayed.Perm page.favoritesData ∧
    List.Sorted (fun a b => ratingValue b ≤ ratingValue a)
      (sortFavorites nameOrder page .rating).displayed ∧
    (sortFavorites nameOrder page .rating).favoritesData = page.favoritesData ∧
    (sortFavorites nameOrder page .recent).displayed = page.favoritesData ∧
    (sortFavorites nameOrder page .recent).favoritesData = page.favoritesData := by
  have hlen : ¬ page.favoritesData.length = 0 := by
    intro h0
    exact h (List.length_eq_zero.mp h0)
  simp only [sortFavorites, hlen, if_false, sortWith, decide_eq_true_eq]
  refine ⟨List.perm_insertionSort _ _, ?_, by trivial, by trivial, by trivial⟩
  have hrel : (fun a b : Favorite => (compareRating a b).num ≤ 0) =
      (fun a b => ratingValue b ≤ ratingValue a) := by
    funext a b
    exact propext (compareRating_nonpos a b)
  have htotal : IsTotal Favorite (fun a b => ratingValue b ≤ ratingValue a) :=
    ⟨fun a b => le_total _ _⟩
  have htrans : IsTrans Favorite (fun a b => ratingValue b ≤ ratingValue a) :=
    ⟨fun a b c hab hbc => le_trans hbc hab⟩
  have hsorted := @List.sorted_insertionSort Favorite
    (fun a b => ratingValue b ≤ ratingValue a) (fun a b => Classical.dec _) htotal htrans
    page.favoritesData
  convert hsorted using 2

theorem sortFavorites_orders_by_rating_witness :
    threeFavorites ≠ [] ∧
    (sortFavorites (fun _ _ => true) ⟨threeFavorites, []⟩ .rating).displayed =
      [⟨some ⟨9, 2⟩, []⟩, ⟨some ⟨3, 1⟩, []⟩, ⟨none, []⟩] ∧
    (sortFavorites (fun _ _ => true) ⟨threeFavorites, []⟩ .rating).displayed.Perm
      threeFavorites := by
  have h : threeFavorites ≠ [] := by decide
  have h2 := (sortFavorites_orders_by_rating (fun _ _ => true) ⟨threeFavorites, []⟩ h).1
  exact ⟨h, by decide, h2⟩

theorem generateStarRating_fin (stringToNumber : JsString → JsNum) (q : Num)
    (h : 0 ≤ q.num) :
    generateStarRating stringToNumber (.num (.fin q)) =
      (List.range 5).map fun (i : Nat) =>
        if (i : Int) < q.num / ((q.den : ℕ) : Int) then Star.full
        else if (i : Int) = q.num / ((q.den : ℕ) : Int) ∧
            ((q.den : ℕ) : Int) ≤ 2 * (q.num % ((q.den : ℕ) : Int)) then Star.half
        else Star.empty := by
  have hd : (0 : Int) < ((q.den : ℕ) : Int) := by exact_mod_cast q.den.pos
  by_cases hz : q.num = 0
  · simp [generateStarRating, JsValue.toNumber, JsNum.truthy, hz, JsNum.floor, JsNum.ofInt,
      Num.ofInt, Num.floor, JsNum.mod1, Num.mod1, JsNum.le, Num.le, Num.half, JsNum.lt, Num.lt,
      JsNum.strictEq, Num.eq]
  · have ht : Int.tmod q.num ((q.den : ℕ) : Int) = q.num % ((q.den : ℕ) : Int) :=
      Int.tmod_eq_emod h (le_of_lt hd)
    simp [generateStarRating, JsValue.toNumber, JsNum.truthy, hz, JsNum.floor, JsNum.ofInt,
      Num.ofInt, Num.floor, JsNum.mod1, Num.mod1, JsNum.le, Num.le, Num.half, JsNum.lt, Num.lt,
      JsNum.strictEq, Num.eq, ht]
    intro a _
    rw [mul_comm (q.num % ((q.den : ℕ) : Int)) 2]

theorem Num.floor_value (q : Num) : ⌊q.value⌋ = q.num / ((q.den : ℕ) : Int) := by
  unfold Num.value
  exact Rat.floor_intCast_div_natCast q.num q.den

theorem Num.half_le_fract_value (q : Num) :
    1 / 2 ≤ Int.fract q.value ↔ ((q.den : ℕ) : Int) ≤ 2 * (q.num % ((q.den : ℕ) : Int)) := by
  unfold Num.value
  rw [Int.fract_div_intCast_eq_div_intCast_mod, le_div_iff₀ q.den_pos_cast]
  constructor
  · intro h
    have h2 : (((q.den : ℕ) : Int) : ℚ) ≤ 2 * ((q.num % ((q.den : ℕ) : Int) : Int) : ℚ) := by
      push_cast
      linarith
    exact_mod_cast h2
  · intro h
    have h2 : (((q.den : ℕ) : Int) : ℚ) ≤ 2 * ((q.num % ((q.den : ℕ) : Int) : Int) : ℚ) := by
      exact_mod_cast h
    push_cast at h2
    linarith

theorem Num.num_nonneg_of_value (q : Num) (h : 0 ≤ q.value) : 0 ≤ q.num := by
  unfold Num.value at h
  have := (div_nonneg_iff.mp h)
  rcases this with ⟨h1, -⟩ | ⟨-, h2⟩
  · exact_mod_cast h1
  · exact absurd h2 (not_le.mpr q.den_pos_cast)

theorem generateStarRating_in_range (stringToNumber : JsString → JsNum) (q : Num)
    (h0 : 0 ≤ q.value) (h5 : q.value ≤ 5) :
    generateStarRating stringToNumber (.num (.fin q)) = starsAsStated q.value := by
  rw [generateStarRating_fin stringToNumber q (q.num_nonneg_of_value h0)]
  unfold starsAsStated
  have hfloor := q.floor_value
  have hhalf := q.half_le_fract_value
  have hlo : 0 ≤ ⌊q.value⌋ := Int.floor_nonneg.mpr h0
  have hhi : ⌊q.value⌋ ≤ 5 := by
    have := Int.floor_le_floor h5
    simpa using this
  rw [← hfloor]
  simp only [← hhalf]
  generalize ⌊q.value⌋ = F at hlo hhi
  interval_cases F <;> simp [List.range, List.range.loop] <;> split_ifs <;> simp

theorem generateStarRating_of_falsy (stringToNumber : JsString → JsNum) (rating : JsValue)
    (h : (rating.toNumber stringToNumber).truthy = false) :
    generateStarRating stringToNumber rating = List.replicate 5 .empty := by
  simp only [generateStarRating, h, Bool.false_eq_true, if_false]
  rfl

/-- C29: `generateStarRating` draws exactly 5 icons for every input; for a
rating `r` with `0 ≤ r ≤ 5` they are `floor r` full stars, then a half star
exactly when the fractional part of `r` is at least 1/2 and `floor r < 5`, then
empty stars; a rating that converts to `NaN`, and a missing (`undefined` or
`null`) rating, give 5 empty stars. -/
theorem generateStarRating_draws_five_icons (stringToNumber : JsString → JsNum) :
    (∀ rating, (generateStarRating stringToNumber rating).length = 5) ∧
    (∀ q : Num, 0 ≤ q.value → q.value ≤ 5 →
      generateStarRating stringToNumber (.num (.fin q)) = starsAsStated q.value) ∧
    (∀ rating, rating.toNumber stringToNumber = .nan →
      generateStarRating stringToNumber rating = List.replicate 5 .empty) ∧
    generateStarRating stringToNumber .undefined = List.replicate 5 .empty ∧
    generateStarRating stringToNumber .null = List.replicate 5 .empty := by
  refine ⟨?_, generateStarRating_in_range stringToNumber, ?_, ?_, ?_⟩
  · intro rating
    simp [generateStarRating]
  · intro rating h
    exact generateStarRating_of_falsy stringToNumber rating (by rw [h]; rfl)
  · exact generateStarRating_of_falsy stringToNumber .undefined rfl
  · exact generateStarRating_of_falsy stringToNumber .null rfl

theorem generateStarRating_draws_five_icons_witness :
    (0 : ℚ) ≤ (⟨9, 2⟩ : Num).value ∧ (⟨9, 2⟩ : Num).value ≤ 5 ∧
    generateStarRating (fun _ => .nan) (.num (.fin ⟨9, 2⟩)) =
      starsAsStated (⟨9, 2⟩ : Num).value ∧
    generateStarRating (fun _ => .nan) (.num (.fin ⟨9, 2⟩)) =
      [.full, .full, .full, .full, .half] := by
  have h0 : (0 : ℚ) ≤ (⟨9, 2⟩ : Num).value := by norm_num [Num.value]
  have h5 : (⟨9, 2⟩ : Num).value ≤ 5 := by norm_num [Num.value]
  have h := (generateStarRating_draws_five_icons (fun _ => .nan)).2.1 ⟨9, 2⟩ h0 h5
  exact ⟨h0, h5, h, by decide⟩

theorem Num.value_eq_zero_iff (q : Num) : q.value = 0 ↔ q.num = 0 := by
  unfold Num.value
  rw [div_eq_zero_iff]
  constructor
  · rintro (h | h)
    · exact_mod_cast h
    · exact absurd h (ne_of_gt q.den_pos_cast)
  · intro h
    left
    exact_mod_cast h

theorem renderStars_fin (stringToNumber : JsString → JsNum) (q : Num) (h : q.num ≠ 0) :
    renderStars stringToNumber (.num (.fin q)) =
      generateStarRating stringToNumber (.num (.fin q)) := by
  simp only [renderStars, generateStarRating, JsValue.truthy, JsValue.toNumber, JsNum.truthy,
    h, ne_eq, not_false_eq_true, decide_True, Bool.not_true, if_true, Bool.false_eq_true,
    if_false]
  apply List.map_congr_left
  intro k _
  simp only [JsNum.floor, JsNum.ofInt, Num.ofInt, JsNum.le, JsNum.lt, JsNum.strictEq,
    JsNum.succ, Num.le, Num.lt, Num.eq, PNat.one_coe, Nat.cast_one, mul_one]
  have h1 : ((k : Int) + 1 ≤ q.floor) ↔ ((k : Int) < q.floor) := Int.add_one_le_iff
  have h2 : ((k : Int) + 1 = q.floor + 1) ↔ ((k : Int) = q.floor) := by omega
  simp only [h1, h2]

/-- C30: for every rating that is a number other than zero and `NaN`,
`renderStars` of `booking.js` appends the same icons as `generateStarRating`
of `dashboard.js`, so the two return the same string. -/
theorem renderStars_eq_generateStarRating (stringToNumber : JsString → JsNum) (n : JsNum)
    (hnan : n ≠ .nan) (hzero : ∀ q, n = .fin q → q.value ≠ 0) :
    renderStars stringToNumber (.num n) = generateStarRating stringToNumber (.num n) ∧
    starsHtml (renderStars stringToNumber (.num n)) =
      starsHtml (generateStarRating stringToNumber (.num n)) := by
  have key : renderStars stringToNumber (.num n) =
      generateStarRating stringToNumber (.num n) := by
    cases n with
    | nan => exact (hnan rfl).elim
    | posInf => rfl
    | negInf => rfl
    | fin q =>
      apply renderStars_fin
      intro h0
      exact hzero q rfl ((Num.value_eq_zero_iff q).mpr h0)
  exact ⟨key, by rw [key]⟩

theorem renderStars_eq_generateStarRating_witness :
    JsNum.fin ⟨7, 2⟩ ≠ .nan ∧
    renderStars (fun _ => .nan) (.num (.fin ⟨7, 2⟩)) =
      generateStarRating (fun _ => .nan) (.num (.fin ⟨7, 2⟩)) ∧
    renderStars (fun _ => .nan) (.num (.fin ⟨7, 2⟩)) =
      [.full, .full, .full, .half, .empty] := by
  have hnan : JsNum.fin ⟨7, 2⟩ ≠ .nan := by decide
  have hz : ∀ q, JsNum.fin ⟨7, 2⟩ = .fin q → q.value ≠ 0 := by
    intro q hq
    cases hq
    norm_num [Num.value]
  have h := (renderStars_eq_generateStarRating (fun _ => .nan) _ hnan hz).1
  exact ⟨hnan, h, by decide⟩

end JobConnect
